import Mathlib

/-!
Verification development for the EDI loan-application app
(`src/streamlit_app.py`): the applicant schema validator (a pydantic
model with per-field validators), the dual-backend record store
(append-only JSONL files in local mode), login and admin gating, and
identifier generation (ULID for applicants, UUID4 for local users).

Python values are embedded as follows: `str` as `String` (with Python's
`.lower()` / `.strip()` modelled character-wise where needed),
`datetime.date` as a year/month/day triple, `int` as `Int`, `float` as
`Rat` (validation never inspects numeric values, only passes them
through), `bool` as `Bool`, `Optional[t]` as `Option t`.  A candidate
record submitted to the validator is a record of `Option`-typed fields:
`none` models an absent field.
-/

namespace EDI

/-- Embedding of `datetime.date`: a calendar date as passed around by the
app (the UI hands already-parsed `date` objects to the model). -/
structure PyDate where
  year : Nat
  month : Nat
  day : Nat
deriving DecidableEq, Repr

/-- A calendar-valid date (the claims' "date fields must parse to
calendar dates" side condition). -/
def PyDate.Valid (d : PyDate) : Prop :=
  1 ≤ d.month ∧ d.month ≤ 12 ∧ 1 ≤ d.day ∧ d.day ≤ 31

instance (d : PyDate) : Decidable d.Valid := by
  unfold PyDate.Valid; infer_instance

/-- Embedding of the pydantic `Applicant` model of `src/streamlit_app.py`
(lines 62-106): the normalized, fully-typed record produced by a
successful validation.  Field order and names follow the source. -/
structure Applicant where
  region : String
  batch : String
  zone : String
  woreda : String
  kebele : String
  first_name : String
  father_name : String
  grandfather_name : String
  date_of_birth : PyDate
  date_collected : PyDate
  sex : String
  applicant_address : String
  has_business_license : Bool
  trade_license_number : Option String
  trade : Option String
  registration_number : Option String
  tin_number : Option String
  date_of_business_license : Option PyDate
  enterprise_category : String
  ownership_form : String
  business_sector : String
  number_of_owners : Int
  owners_names : String
  registered_address : String
  business_premise : String
  male_employees : Int
  female_employees : Int
  business_capital_etb : Rat
  monthly_revenue_etb : Rat
  annual_revenue_last3 : Rat
  net_profit_last3 : Rat
  financing_required_etb : Rat
  source_of_repayment : String
  purpose_of_funds : String
  guarantor_first_name : String
  guarantor_father_name : String
  guarantor_grandfather_name : String
  guarantor_phone : String
  guarantor_monthly_income : Rat
  credit_history : String
  cbe_account_number : String
  cbe_branch : String
  cbe_city : String
  mode_of_finance : String
deriving DecidableEq, Repr

/-- A candidate applicant submission: every field of the pydantic model
as an `Option` (`none` = field absent from the submitted mapping).  For
the `Optional[...]`-typed model fields (which default to `None`), the
inner value is itself what the model stores, so absence and an explicit
`None` coincide: both are `none`. -/
structure CandidateApplicant where
  region : Option String
  batch : Option String
  zone : Option String
  woreda : Option String
  kebele : Option String
  first_name : Option String
  father_name : Option String
  grandfather_name : Option String
  date_of_birth : Option PyDate
  date_collected : Option PyDate
  sex : Option String
  applicant_address : Option String
  has_business_license : Option Bool
  trade_license_number : Option String
  trade : Option String
  registration_number : Option String
  tin_number : Option String
  date_of_business_license : Option PyDate
  enterprise_category : Option String
  ownership_form : Option String
  business_sector : Option String
  number_of_owners : Option Int
  owners_names : Option String
  registered_address : Option String
  business_premise : Option String
  male_employees : Option Int
  female_employees : Option Int
  business_capital_etb : Option Rat
  monthly_revenue_etb : Option Rat
  annual_revenue_last3 : Option Rat
  net_profit_last3 : Option Rat
  financing_required_etb : Option Rat
  source_of_repayment : Option String
  purpose_of_funds : Option String
  guarantor_first_name : Option String
  guarantor_father_name : Option String
  guarantor_grandfather_name : Option String
  guarantor_phone : Option String
  guarantor_monthly_income : Option Rat
  credit_history : Option String
  cbe_account_number : Option String
  cbe_branch : Option String
  cbe_city : Option String
  mode_of_finance : Option String
deriving DecidableEq, Repr

/-- Validation result: pydantic collects the errors of every field into
one `ValidationError`; we carry the list of violated field names. -/
abbrev VRes (α : Type) : Type := Except (List String) α

/-- A successful (error-free) validation step. -/
def vpure {α : Type} (a : α) : VRes α := .ok a

/-- Error-accumulating application, mirroring pydantic's behaviour of
validating every field and reporting all failures together. -/
def vmap2 {α β : Type} (f : VRes (α → β)) (x : VRes α) : VRes β :=
  match f, x with
  | .ok g, .ok a => .ok (g a)
  | .ok _, .error e => .error e
  | .error e, .ok _ => .error e
  | .error e1, .error e2 => .error (e1 ++ e2)

/-- A required model field: absent means a "field required" error named
after the field. -/
def reqField {α : Type} (name : String) : Option α → VRes α
  | none => .error [name]
  | some v => .ok v

/-- A required enumerated/pattern field: absent, or present with a value
the field's validator rejects, is an error named after the field. -/
def enumField (name : String) (ok : String → Bool) : Option String → VRes String
  | none => .error [name]
  | some v => if ok v then .ok v else .error [name]

/-- `sex` constraint from `Field(pattern="^(m|f)$")` (line 73): with
pydantic v2 the anchored pattern accepts exactly "m" and "f". -/
def sexOk (v : String) : Bool := v == "m" || v == "f"

/-- Validator `v1` (lines 108-112). -/
def entCatOk (v : String) : Bool :=
  v == "micro" || v == "small" || v == "medium" || v == "startup"

/-- Validator `v2` (lines 114-118). -/
def ownOk (v : String) : Bool :=
  v == "soleproprietorship" || v == "partnership" || v == "plc"

/-- Validator `v3` (lines 120-124). -/
def sectorOk (v : String) : Bool :=
  v == "manufacturing" || v == "construction" || v == "agriculture" ||
  v == "mining" || v == "service" || v == "others"

/-- Validator `v4` (lines 126-130). -/
def premiseOk (v : String) : Bool :=
  v == "rented" || v == "applicant_owned" || v == "government"

/-- Validator `v5` (lines 132-136). -/
def financeOk (v : String) : Bool := v == "conventional" || v == "ifb"

/-- Embedding of constructing `Applicant(...)`: every required field must
be present, the `sex` pattern and the five enumeration validators must
pass; all field errors are accumulated (in declaration order) into one
failure, as pydantic's `ValidationError` does.  On success every field
value is carried over unchanged. -/
def validateApplicant (c : CandidateApplicant) : VRes Applicant :=
  let v1 := vmap2 (vpure Applicant.mk) (reqField "region" c.region)
  let v2 := vmap2 v1 (reqField "batch" c.batch)
  let v3 := vmap2 v2 (reqField "zone" c.zone)
  let v4 := vmap2 v3 (reqField "woreda" c.woreda)
  let v5 := vmap2 v4 (reqField "kebele" c.kebele)
  let v6 := vmap2 v5 (reqField "first_name" c.first_name)
  let v7 := vmap2 v6 (reqField "father_name" c.father_name)
  let v8 := vmap2 v7 (reqField "grandfather_name" c.grandfather_name)
  let v9 := vmap2 v8 (reqField "date_of_birth" c.date_of_birth)
  let v10 := vmap2 v9 (reqField "date_collected" c.date_collected)
  let v11 := vmap2 v10 (enumField "sex" sexOk c.sex)
  let v12 := vmap2 v11 (reqField "applicant_address" c.applicant_address)
  let v13 := vmap2 v12 (reqField "has_business_license" c.has_business_license)
  let v14 := vmap2 v13 (vpure c.trade_license_number)
  let v15 := vmap2 v14 (vpure c.trade)
  let v16 := vmap2 v15 (vpure c.registration_number)
  let v17 := vmap2 v16 (vpure c.tin_number)
  let v18 := vmap2 v17 (vpure c.date_of_business_license)
  let v19 := vmap2 v18 (enumField "enterprise_category" entCatOk c.enterprise_category)
  let v20 := vmap2 v19 (enumField "ownership_form" ownOk c.ownership_form)
  let v21 := vmap2 v20 (enumField "business_sector" sectorOk c.business_sector)
  let v22 := vmap2 v21 (reqField "number_of_owners" c.number_of_owners)
  let v23 := vmap2 v22 (reqField "owners_names" c.owners_names)
  let v24 := vmap2 v23 (reqField "registered_address" c.registered_address)
  let v25 := vmap2 v24 (enumField "business_premise" premiseOk c.business_premise)
  let v26 := vmap2 v25 (reqField "male_employees" c.male_employees)
  let v27 := vmap2 v26 (reqField "female_employees" c.female_employees)
  let v28 := vmap2 v27 (reqField "business_capital_etb" c.business_capital_etb)
  let v29 := vmap2 v28 (reqField "monthly_revenue_etb" c.monthly_revenue_etb)
  let v30 := vmap2 v29 (reqField "annual_revenue_last3" c.annual_revenue_last3)
  let v31 := vmap2 v30 (reqField "net_profit_last3" c.net_profit_last3)
  let v32 := vmap2 v31 (reqField "financing_required_etb" c.financing_required_etb)
  let v33 := vmap2 v32 (reqField "source_of_repayment" c.source_of_repayment)
  let v34 := vmap2 v33 (reqField "purpose_of_funds" c.purpose_of_funds)
  let v35 := vmap2 v34 (reqField "guarantor_first_name" c.guarantor_first_name)
  let v36 := vmap2 v35 (reqField "guarantor_father_name" c.guarantor_father_name)
  let v37 := vmap2 v36 (reqField "guarantor_grandfather_name" c.guarantor_grandfather_name)
  let v38 := vmap2 v37 (reqField "guarantor_phone" c.guarantor_phone)
  let v39 := vmap2 v38 (reqField "guarantor_monthly_income" c.guarantor_monthly_income)
  let v40 := vmap2 v39 (reqField "credit_history" c.credit_history)
  let v41 := vmap2 v40 (reqField "cbe_account_number" c.cbe_account_number)
  let v42 := vmap2 v41 (reqField "cbe_branch" c.cbe_branch)
  let v43 := vmap2 v42 (reqField "cbe_city" c.cbe_city)
  vmap2 v43 (enumField "mode_of_finance" financeOk c.mode_of_finance)

/-- The errors carried by a validation outcome. -/
def errsOf {α : Type} : VRes α → List String
  | .ok _ => []
  | .error e => e

/-- Field names a missing required field contributes. -/
def reqViol {α : Type} (name : String) : Option α → List String
  | none => [name]
  | some _ => []

/-- Field names an enumerated/pattern field contributes. -/
def enumViol (name : String) (ok : String → Bool) : Option String → List String
  | none => [name]
  | some v => if ok v then [] else [name]

/-- The full list of violated field names of a candidate, in model
declaration order. -/
def violations (c : CandidateApplicant) : List String :=
  reqViol "region" c.region ++ reqViol "batch" c.batch ++
  reqViol "zone" c.zone ++ reqViol "woreda" c.woreda ++
  reqViol "kebele" c.kebele ++ reqViol "first_name" c.first_name ++
  reqViol "father_name" c.father_name ++
  reqViol "grandfather_name" c.grandfather_name ++
  reqViol "date_of_birth" c.date_of_birth ++
  reqViol "date_collected" c.date_collected ++
  enumViol "sex" sexOk c.sex ++
  reqViol "applicant_address" c.applicant_address ++
  reqViol "has_business_license" c.has_business_license ++
  enumViol "enterprise_category" entCatOk c.enterprise_category ++
  enumViol "ownership_form" ownOk c.ownership_form ++
  enumViol "business_sector" sectorOk c.business_sector ++
  reqViol "number_of_owners" c.number_of_owners ++
  reqViol "owners_names" c.owners_names ++
  reqViol "registered_address" c.registered_address ++
  enumViol "business_premise" premiseOk c.business_premise ++
  reqViol "male_employees" c.male_employees ++
  reqViol "female_employees" c.female_employees ++
  reqViol "business_capital_etb" c.business_capital_etb ++
  reqViol "monthly_revenue_etb" c.monthly_revenue_etb ++
  reqViol "annual_revenue_last3" c.annual_revenue_last3 ++
  reqViol "net_profit_last3" c.net_profit_last3 ++
  reqViol "financing_required_etb" c.financing_required_etb ++
  reqViol "source_of_repayment" c.source_of_repayment ++
  reqViol "purpose_of_funds" c.purpose_of_funds ++
  reqViol "guarantor_first_name" c.guarantor_first_name ++
  reqViol "guarantor_father_name" c.guarantor_father_name ++
  reqViol "guarantor_grandfather_name" c.guarantor_grandfather_name ++
  reqViol "guarantor_phone" c.guarantor_phone ++
  reqViol "guarantor_monthly_income" c.guarantor_monthly_income ++
  reqViol "credit_history" c.credit_history ++
  reqViol "cbe_account_number" c.cbe_account_number ++
  reqViol "cbe_branch" c.cbe_branch ++
  reqViol "cbe_city" c.cbe_city ++
  enumViol "mode_of_finance" financeOk c.mode_of_finance

theorem errsOf_vmap2 {α β : Type} (f : VRes (α → β)) (x : VRes α) :
    errsOf (vmap2 f x) = errsOf f ++ errsOf x := by
  cases f <;> cases x <;> simp [vmap2, errsOf]

theorem errsOf_vpure {α : Type} (a : α) : errsOf (vpure a) = [] := rfl

theorem errsOf_reqField {α : Type} (name : String) (o : Option α) :
    errsOf (reqField name o) = reqViol name o := by
  cases o <;> rfl

theorem errsOf_enumField (name : String) (ok : String → Bool) (o : Option String) :
    errsOf (enumField name ok o) = enumViol name ok o := by
  cases o with
  | none => rfl
  | some v =>
    by_cases h : ok v <;> simp [enumField, enumViol, h, errsOf]

theorem errsOf_validateApplicant (c : CandidateApplicant) :
    errsOf (validateApplicant c) = violations c := by
  simp only [validateApplicant, violations, errsOf_vmap2, errsOf_vpure,
    errsOf_reqField, errsOf_enumField, List.append_nil, List.nil_append,
    List.append_assoc]

theorem validateApplicant_error_of_violations (c : CandidateApplicant)
    (h : violations c ≠ []) :
    validateApplicant c = .error (violations c) := by
  have he := errsOf_validateApplicant c
  cases hv : validateApplicant c with
  | ok a =>
    rw [hv] at he
    simp only [errsOf] at he
    exact absurd he.symm h
  | error e =>
    rw [hv] at he
    simp only [errsOf] at he
    rw [he]

theorem mem_reqViol {α : Type} (x name : String) (o : Option α) :
    x ∈ reqViol name o ↔ x = name ∧ o = none := by
  cases o <;> simp [reqViol]

theorem mem_enumViol (x name : String) (ok : String → Bool) (o : Option String) :
    x ∈ enumViol name ok o ↔
      x = name ∧ (o = none ∨ ∃ v, o = some v ∧ ok v = false) := by
  cases o with
  | none => simp [enumViol]
  | some v => by_cases h : ok v <;> simp [enumViol, h]

/-- Spec-side description of when a field of a candidate is violated: a
required field is absent, or an enumerated/pattern field is absent or
holds a value its validator rejects. -/
def ViolatedField (c : CandidateApplicant) (x : String) : Prop :=
  (x = "region" ∧ c.region = none) ∨
  (x = "batch" ∧ c.batch = none) ∨
  (x = "zone" ∧ c.zone = none) ∨
  (x = "woreda" ∧ c.woreda = none) ∨
  (x = "kebele" ∧ c.kebele = none) ∨
  (x = "first_name" ∧ c.first_name = none) ∨
  (x = "father_name" ∧ c.father_name = none) ∨
  (x = "grandfather_name" ∧ c.grandfather_name = none) ∨
  (x = "date_of_birth" ∧ c.date_of_birth = none) ∨
  (x = "date_collected" ∧ c.date_collected = none) ∨
  (x = "sex" ∧ (c.sex = none ∨ ∃ v, c.sex = some v ∧ sexOk v = false)) ∨
  (x = "applicant_address" ∧ c.applicant_address = none) ∨
  (x = "has_business_license" ∧ c.has_business_license = none) ∨
  (x = "enterprise_category" ∧ (c.enterprise_category = none ∨
    ∃ v, c.enterprise_category = some v ∧ entCatOk v = false)) ∨
  (x = "ownership_form" ∧ (c.ownership_form = none ∨
    ∃ v, c.ownership_form = some v ∧ ownOk v = false)) ∨
  (x = "business_sector" ∧ (c.business_sector = none ∨
    ∃ v, c.business_sector = some v ∧ sectorOk v = false)) ∨
  (x = "number_of_owners" ∧ c.number_of_owners = none) ∨
  (x = "owners_names" ∧ c.owners_names = none) ∨
  (x = "registered_address" ∧ c.registered_address = none) ∨
  (x = "business_premise" ∧ (c.business_premise = none ∨
    ∃ v, c.business_premise = some v ∧ premiseOk v = false)) ∨
  (x = "male_employees" ∧ c.male_employees = none) ∨
  (x = "female_employees" ∧ c.female_employees = none) ∨
  (x = "business_capital_etb" ∧ c.business_capital_etb = none) ∨
  (x = "monthly_revenue_etb" ∧ c.monthly_revenue_etb = none) ∨
  (x = "annual_revenue_last3" ∧ c.annual_revenue_last3 = none) ∨
  (x = "net_profit_last3" ∧ c.net_profit_last3 = none) ∨
  (x = "financing_required_etb" ∧ c.financing_required_etb = none) ∨
  (x = "source_of_repayment" ∧ c.source_of_repayment = none) ∨
  (x = "purpose_of_funds" ∧ c.purpose_of_funds = none) ∨
  (x = "guarantor_first_name" ∧ c.guarantor_first_name = none) ∨
  (x = "guarantor_father_name" ∧ c.guarantor_father_name = none) ∨
  (x = "guarantor_grandfather_name" ∧ c.guarantor_grandfather_name = none) ∨
  (x = "guarantor_phone" ∧ c.guarantor_phone = none) ∨
  (x = "guarantor_monthly_income" ∧ c.guarantor_monthly_income = none) ∨
  (x = "credit_history" ∧ c.credit_history = none) ∨
  (x = "cbe_account_number" ∧ c.cbe_account_number = none) ∨
  (x = "cbe_branch" ∧ c.cbe_branch = none) ∨
  (x = "cbe_city" ∧ c.cbe_city = none) ∨
  (x = "mode_of_finance" ∧ (c.mode_of_finance = none ∨
    ∃ v, c.mode_of_finance = some v ∧ financeOk v = false))

theorem mem_violations_iff (c : CandidateApplicant) (x : String) :
    x ∈ violations c ↔ ViolatedField c x := by
  simp [violations, ViolatedField, mem_reqViol, mem_enumViol,
    List.mem_append]

/-- A stored applicant row as built by `collector_page` (lines 311-328):
the validated fields plus a freshly generated identifier and the
`collected_by` back-reference. -/
structure StoredApplicant where
  id : String
  fields : Applicant
  collected_by : String
deriving DecidableEq, Repr

/-- Outcome shown to the collector on submission. -/
inductive SubmitResult where
  | validationError (fields : List String)
  | saved (id : String)
deriving DecidableEq, Repr

/-- Embedding of the submit branch of `collector_page` (lines 288-338,
local backend): construct the `Applicant` model; on a `ValidationError`
report it and stop (`st.stop()`) before any persistence call; otherwise
append the record to the applicants store. -/
def collectorSubmit (store : List StoredApplicant) (c : CandidateApplicant)
    (newId collectedBy : String) : List StoredApplicant × SubmitResult :=
  match validateApplicant c with
  | .error es => (store, .validationError es)
  | .ok a => (store ++ [⟨newId, a, collectedBy⟩], .saved newId)

/-- A fully valid sample candidate used to build concrete test inputs. -/
def cBase : CandidateApplicant where
  region := some "Amhara"
  batch := some "B1"
  zone := some "Z1"
  woreda := some "W1"
  kebele := some "K1"
  first_name := some "Abebe"
  father_name := some "Kebede"
  grandfather_name := some "Tesfaye"
  date_of_birth := some ⟨1990, 1, 1⟩
  date_collected := some ⟨2024, 5, 2⟩
  sex := some "f"
  applicant_address := some "Addr 1"
  has_business_license := some false
  trade_license_number := none
  trade := none
  registration_number := none
  tin_number := none
  date_of_business_license := none
  enterprise_category := some "micro"
  ownership_form := some "plc"
  business_sector := some "service"
  number_of_owners := some 1
  owners_names := some "Abebe Kebede"
  registered_address := some "Addr 2"
  business_premise := some "rented"
  male_employees := some 2
  female_employees := some 3
  business_capital_etb := some 1000
  monthly_revenue_etb := some 200
  annual_revenue_last3 := some 5000
  net_profit_last3 := some 100
  financing_required_etb := some 20000
  source_of_repayment := some "sales"
  purpose_of_funds := some "expansion"
  guarantor_first_name := some "Worku"
  guarantor_father_name := some "Alemu"
  guarantor_grandfather_name := some "Bekele"
  guarantor_phone := some "0911000000"
  guarantor_monthly_income := some 300
  credit_history := some "clean"
  cbe_account_number := some "1000222333"
  cbe_branch := some "Main"
  cbe_city := some "Addis"
  mode_of_finance := some "ifb"

/-- The normalized record `cBase` validates to. -/
def aBase : Applicant where
  region := "Amhara"
  batch := "B1"
  zone := "Z1"
  woreda := "W1"
  kebele := "K1"
  first_name := "Abebe"
  father_name := "Kebede"
  grandfather_name := "Tesfaye"
  date_of_birth := ⟨1990, 1, 1⟩
  date_collected := ⟨2024, 5, 2⟩
  sex := "f"
  applicant_address := "Addr 1"
  has_business_license := false
  trade_license_number := none
  trade := none
  registration_number := none
  tin_number := none
  date_of_business_license := none
  enterprise_category := "micro"
  ownership_form := "plc"
  business_sector := "service"
  number_of_owners := 1
  owners_names := "Abebe Kebede"
  registered_address := "Addr 2"
  business_premise := "rented"
  male_employees := 2
  female_employees := 3
  business_capital_etb := 1000
  monthly_revenue_etb := 200
  annual_revenue_last3 := 5000
  net_profit_last3 := 100
  financing_required_etb := 20000
  source_of_repayment := "sales"
  purpose_of_funds := "expansion"
  guarantor_first_name := "Worku"
  guarantor_father_name := "Alemu"
  guarantor_grandfather_name := "Bekele"
  guarantor_phone := "0911000000"
  guarantor_monthly_income := 300
  credit_history := "clean"
  cbe_account_number := "1000222333"
  cbe_branch := "Main"
  cbe_city := "Addis"
  mode_of_finance := "ifb"

/-- `cBase` with its `region`, `first_name` and `credit_history` fields
set to the empty string (all fields still present, enumerations valid). -/
def cEmptyStrings : CandidateApplicant :=
  { cBase with region := some "", first_name := some "", credit_history := some "" }

/-- The record `cEmptyStrings` validates to. -/
def aEmptyStrings : Applicant :=
  { aBase with region := "", first_name := "", credit_history := "" }

/-- `cBase` with a missing `region` and an out-of-enumeration `sex`. -/
def cBadFields : CandidateApplicant :=
  { cBase with region := none, sex := some "x" }

/-- C2: a candidate missing a required field or using an
out-of-enumeration value is rejected as a whole, the structured failure
lists exactly the violated field names (all of them, in declaration
order, not just the first), and the submission is discarded before any
persistence call: the store is unchanged. -/
theorem C2_reject_names_all_violations_no_write
    (c : CandidateApplicant) (store : List StoredApplicant)
    (newId collectedBy : String)
    (h : ∃ x, ViolatedField c x) :
    validateApplicant c = .error (violations c) ∧
    (∀ a, validateApplicant c ≠ .ok a) ∧
    (∀ x, x ∈ violations c ↔ ViolatedField c x) ∧
    collectorSubmit store c newId collectedBy
      = (store, .validationError (violations c)) := by
  obtain ⟨x, hx⟩ := h
  have hmem : x ∈ violations c := (mem_violations_iff c x).mpr hx
  have hne : violations c ≠ [] := List.ne_nil_of_mem hmem
  have he := validateApplicant_error_of_violations c hne
  refine ⟨he, ?_, fun y => mem_violations_iff c y, ?_⟩
  · intro a ha
    rw [he] at ha
    exact Except.noConfusion ha
  · unfold collectorSubmit
    rw [he]

/-- Witness for C2: a candidate with `region` missing and `sex = "x"` is
rejected, both violations are named, and the empty store stays empty. -/
theorem C2_reject_names_all_violations_no_write_witness :
    collectorSubmit [] cBadFields "01AN" "u1"
      = ([], .validationError ["region", "sex"]) := by
  have h := C2_reject_names_all_violations_no_write cBadFields [] "01AN" "u1"
    ⟨"region", Or.inl ⟨rfl, rfl⟩⟩
  rw [h.2.2.2]
  rfl

/-- C3 (and the acceptance half of the validator contract): a candidate
whose every field is present and satisfies its constraint is accepted,
and every field of the normalized output equals the corresponding input
value — validation alters nothing. -/
theorem C3_accepts_and_preserves
    (c : CandidateApplicant)
    (region batch zone woreda kebele first_name father_name
      grandfather_name : String)
    (date_of_birth date_collected : PyDate)
    (sex applicant_address : String)
    (has_business_license : Bool)
    (enterprise_category ownership_form business_sector : String)
    (number_of_owners : Int)
    (owners_names registered_address business_premise : String)
    (male_employees female_employees : Int)
    (business_capital_etb monthly_revenue_etb annual_revenue_last3
      net_profit_last3 financing_required_etb : Rat)
    (source_of_repayment purpose_of_funds guarantor_first_name
      guarantor_father_name guarantor_grandfather_name
      guarantor_phone : String)
    (guarantor_monthly_income : Rat)
    (credit_history cbe_account_number cbe_branch cbe_city
      mode_of_finance : String)
    (h1 : c.region = some region)
    (h2 : c.batch = some batch)
    (h3 : c.zone = some zone)
    (h4 : c.woreda = some woreda)
    (h5 : c.kebele = some kebele)
    (h6 : c.first_name = some first_name)
    (h7 : c.father_name = some father_name)
    (h8 : c.grandfather_name = some grandfather_name)
    (h9 : c.date_of_birth = some date_of_birth)
    (h10 : c.date_collected = some date_collected)
    (h11 : c.sex = some sex)
    (h12 : c.applicant_address = some applicant_address)
    (h13 : c.has_business_license = some has_business_license)
    (h14 : c.enterprise_category = some enterprise_category)
    (h15 : c.ownership_form = some ownership_form)
    (h16 : c.business_sector = some business_sector)
    (h17 : c.number_of_owners = some number_of_owners)
    (h18 : c.owners_names = some owners_names)
    (h19 : c.registered_address = some registered_address)
    (h20 : c.business_premise = some business_premise)
    (h21 : c.male_employees = some male_employees)
    (h22 : c.female_employees = some female_employees)
    (h23 : c.business_capital_etb = some business_capital_etb)
    (h24 : c.monthly_revenue_etb = some monthly_revenue_etb)
    (h25 : c.annual_revenue_last3 = some annual_revenue_last3)
    (h26 : c.net_profit_last3 = some net_profit_last3)
    (h27 : c.financing_required_etb = some financing_required_etb)
    (h28 : c.source_of_repayment = some source_of_repayment)
    (h29 : c.purpose_of_funds = some purpose_of_funds)
    (h30 : c.guarantor_first_name = some guarantor_first_name)
    (h31 : c.guarantor_father_name = some guarantor_father_name)
    (h32 : c.guarantor_grandfather_name = some guarantor_grandfather_name)
    (h33 : c.guarantor_phone = some guarantor_phone)
    (h34 : c.guarantor_monthly_income = some guarantor_monthly_income)
    (h35 : c.credit_history = some credit_history)
    (h36 : c.cbe_account_number = some cbe_account_number)
    (h37 : c.cbe_branch = some cbe_branch)
    (h38 : c.cbe_city = some cbe_city)
    (h39 : c.mode_of_finance = some mode_of_finance)
    (hsex : sexOk sex = true)
    (hent : entCatOk enterprise_category = true)
    (hown : ownOk ownership_form = true)
    (hsec : sectorOk business_sector = true)
    (hprem : premiseOk business_premise = true)
    (hfin : financeOk mode_of_finance = true)
    (hne1 : region ≠ "") (hne2 : batch ≠ "") (hne3 : zone ≠ "")
    (hne4 : woreda ≠ "") (hne5 : kebele ≠ "") (hne6 : first_name ≠ "")
    (hne7 : father_name ≠ "") (hne8 : grandfather_name ≠ "")
    (hne9 : applicant_address ≠ "") (hne10 : owners_names ≠ "")
    (hne11 : registered_address ≠ "") (hne12 : source_of_repayment ≠ "")
    (hne13 : purpose_of_funds ≠ "") (hne14 : guarantor_first_name ≠ "")
    (hne15 : guarantor_father_name ≠ "")
    (hne16 : guarantor_grandfather_name ≠ "")
    (hne17 : guarantor_phone ≠ "") (hne18 : credit_history ≠ "")
    (hne19 : cbe_account_number ≠ "") (hne20 : cbe_branch ≠ "")
    (hne21 : cbe_city ≠ "")
    (hd1 : date_of_birth.Valid) (hd2 : date_collected.Valid)
    (hn1 : 0 ≤ number_of_owners) (hn2 : 0 ≤ male_employees)
    (hn3 : 0 ≤ female_employees) (hn4 : 0 ≤ business_capital_etb)
    (hn5 : 0 ≤ monthly_revenue_etb) (hn6 : 0 ≤ annual_revenue_last3)
    (hn7 : 0 ≤ financing_required_etb)
    (hn8 : 0 ≤ guarantor_monthly_income) :
    validateApplicant c = .ok
      { region := region, batch := batch, zone := zone, woreda := woreda,
        kebele := kebele, first_name := first_name,
        father_name := father_name, grandfather_name := grandfather_name,
        date_of_birth := date_of_birth, date_collected := date_collected,
        sex := sex, applicant_address := applicant_address,
        has_business_license := has_business_license,
        trade_license_number := c.trade_license_number,
        trade := c.trade, registration_number := c.registration_number,
        tin_number := c.tin_number,
        date_of_business_license := c.date_of_business_license,
        enterprise_category := enterprise_category,
        ownership_form := ownership_form,
        business_sector := business_sector,
        number_of_owners := number_of_owners,
        owners_names := owners_names,
        registered_address := registered_address,
        business_premise := business_premise,
        male_employees := male_employees,
        female_employees := female_employees,
        business_capital_etb := business_capital_etb,
        monthly_revenue_etb := monthly_revenue_etb,
        annual_revenue_last3 := annual_revenue_last3,
        net_profit_last3 := net_profit_last3,
        financing_required_etb := financing_required_etb,
        source_of_repayment := source_of_repayment,
        purpose_of_funds := purpose_of_funds,
        guarantor_first_name := guarantor_first_name,
        guarantor_father_name := guarantor_father_name,
        guarantor_grandfather_name := guarantor_grandfather_name,
        guarantor_phone := guarantor_phone,
        guarantor_monthly_income := guarantor_monthly_income,
        credit_history := credit_history,
        cbe_account_number := cbe_account_number,
        cbe_branch := cbe_branch, cbe_city := cbe_city,
        mode_of_finance := mode_of_finance } := by
  simp only [validateApplicant, h1, h2, h3, h4, h5, h6, h7, h8, h9, h10,
    h11, h12, h13, h14, h15, h16, h17, h18, h19, h20, h21, h22, h23, h24,
    h25, h26, h27, h28, h29, h30, h31, h32, h33, h34, h35, h36, h37, h38,
    h39, hsex, hent, hown, hsec, hprem, hfin, reqField, enumField, vmap2,
    vpure, if_true]

/-- Witness for C3 at the concrete valid candidate `cBase`. -/
theorem C3_accepts_and_preserves_witness :
    validateApplicant cBase = .ok aBase := by
  unfold cBase aBase
  apply C3_accepts_and_preserves <;> first | rfl | decide

/-- C1 counterexample: a candidate whose required string fields `region`,
`first_name` and `credit_history` are all the empty string is accepted by
the validator — the pydantic model puts no non-emptiness constraint on
plain `str` fields, so the claim "validation fails whenever a required
string field is empty" is false on the code. -/
theorem C1_counterexample :
    cEmptyStrings.region = some "" ∧ cEmptyStrings.first_name = some "" ∧
    cEmptyStrings.credit_history = some "" ∧
    validateApplicant cEmptyStrings = .ok aEmptyStrings := by
  refine ⟨rfl, rfl, rfl, ?_⟩
  rfl

/-- C1 amended: empty strings in plain required string fields (such as
`region`, `first_name`, `credit_history`) do NOT make validation fail:
as long as every field is present and the `sex` pattern and the five
enumerations are satisfied, the validator accepts, the empty strings
passing through unchanged.  Only absence and enumeration/pattern
violations are rejected. -/
theorem C1_amended_empty_strings_accepted
    (c : CandidateApplicant)
    (batch zone woreda kebele father_name grandfather_name : String)
    (date_of_birth date_collected : PyDate)
    (sex applicant_address : String)
    (has_business_license : Bool)
    (enterprise_category ownership_form business_sector : String)
    (number_of_owners : Int)
    (owners_names registered_address business_premise : String)
    (male_employees female_employees : Int)
    (business_capital_etb monthly_revenue_etb annual_revenue_last3
      net_profit_last3 financing_required_etb : Rat)
    (source_of_repayment purpose_of_funds guarantor_first_name
      guarantor_father_name guarantor_grandfather_name
      guarantor_phone : String)
    (guarantor_monthly_income : Rat)
    (cbe_account_number cbe_branch cbe_city mode_of_finance : String)
    (h1 : c.region = some "")
    (h2 : c.batch = some batch)
    (h3 : c.zone = some zone)
    (h4 : c.woreda = some woreda)
    (h5 : c.kebele = some kebele)
    (h6 : c.first_name = some "")
    (h7 : c.father_name = some father_name)
    (h8 : c.grandfather_name = some grandfather_name)
    (h9 : c.date_of_birth = some date_of_birth)
    (h10 : c.date_collected = some date_collected)
    (h11 : c.sex = some sex)
    (h12 : c.applicant_address = some applicant_address)
    (h13 : c.has_business_license = some has_business_license)
    (h14 : c.enterprise_category = some enterprise_category)
    (h15 : c.ownership_form = some ownership_form)
    (h16 : c.business_sector = some business_sector)
    (h17 : c.number_of_owners = some number_of_owners)
    (h18 : c.owners_names = some owners_names)
    (h19 : c.registered_address = some registered_address)
    (h20 : c.business_premise = some business_premise)
    (h21 : c.male_employees = some male_employees)
    (h22 : c.female_employees = some female_employees)
    (h23 : c.business_capital_etb = some business_capital_etb)
    (h24 : c.monthly_revenue_etb = some monthly_revenue_etb)
    (h25 : c.annual_revenue_last3 = some annual_revenue_last3)
    (h26 : c.net_profit_last3 = some net_profit_last3)
    (h27 : c.financing_required_etb = some financing_required_etb)
    (h28 : c.source_of_repayment = some source_of_repayment)
    (h29 : c.purpose_of_funds = some purpose_of_funds)
    (h30 : c.guarantor_first_name = some guarantor_first_name)
    (h31 : c.guarantor_father_name = some guarantor_father_name)
    (h32 : c.guarantor_grandfather_name = some guarantor_grandfather_name)
    (h33 : c.guarantor_phone = some guarantor_phone)
    (h34 : c.guarantor_monthly_income = some guarantor_monthly_income)
    (h35 : c.credit_history = some "")
    (h36 : c.cbe_account_number = some cbe_account_number)
    (h37 : c.cbe_branch = some cbe_branch)
    (h38 : c.cbe_city = some cbe_city)
    (h39 : c.mode_of_finance = some mode_of_finance)
    (hsex : sexOk sex = true)
    (hent : entCatOk enterprise_category = true)
    (hown : ownOk ownership_form = true)
    (hsec : sectorOk business_sector = true)
    (hprem : premiseOk business_premise = true)
    (hfin : financeOk mode_of_finance = true) :
    validateApplicant c = .ok
      { region := "", batch := batch, zone := zone, woreda := woreda,
        kebele := kebele, first_name := "",
        father_name := father_name, grandfather_name := grandfather_name,
        date_of_birth := date_of_birth, date_collected := date_collected,
        sex := sex, applicant_address := applicant_address,
        has_business_license := has_business_license,
        trade_license_number := c.trade_license_number,
        trade := c.trade, registration_number := c.registration_number,
        tin_number := c.tin_number,
        date_of_business_license := c.date_of_business_license,
        enterprise_category := enterprise_category,
        ownership_form := ownership_form,
        business_sector := business_sector,
        number_of_owners := number_of_owners,
        owners_names := owners_names,
        registered_address := registered_address,
        business_premise := business_premise,
        male_employees := male_employees,
        female_employees := female_employees,
        business_capital_etb := business_capital_etb,
        monthly_revenue_etb := monthly_revenue_etb,
        annual_revenue_last3 := annual_revenue_last3,
        net_profit_last3 := net_profit_last3,
        financing_required_etb := financing_required_etb,
        source_of_repayment := source_of_repayment,
        purpose_of_funds := purpose_of_funds,
        guarantor_first_name := guarantor_first_name,
        guarantor_father_name := guarantor_father_name,
        guarantor_grandfather_name := guarantor_grandfather_name,
        guarantor_phone := guarantor_phone,
        guarantor_monthly_income := guarantor_monthly_income,
        credit_history := "",
        cbe_account_number := cbe_account_number,
        cbe_branch := cbe_branch, cbe_city := cbe_city,
        mode_of_finance := mode_of_finance } := by
  simp only [validateApplicant, h1, h2, h3, h4, h5, h6, h7, h8, h9, h10,
    h11, h12, h13, h14, h15, h16, h17, h18, h19, h20, h21, h22, h23, h24,
    h25, h26, h27, h28, h29, h30, h31, h32, h33, h34, h35, h36, h37, h38,
    h39, hsex, hent, hown, hsec, hprem, hfin, reqField, enumField, vmap2,
    vpure, if_true]

/-- Witness for the amended C1 at the concrete candidate with empty
`region`, `first_name` and `credit_history`. -/
theorem C1_amended_empty_strings_accepted_witness :
    validateApplicant cEmptyStrings = .ok aEmptyStrings := by
  unfold cEmptyStrings aEmptyStrings cBase aBase
  apply C1_amended_empty_strings_accepted <;> first | rfl | decide

/-! ## Python string helpers

Python's `str.lower`, `str.strip` and `str.split(",")` modelled
character-wise (`lower` maps each character; `strip` removes leading and
trailing whitespace; `split` cuts at every comma, keeping empty pieces). -/

/-- The characters Python's `str.strip()` removes. -/
def isPySpace (ch : Char) : Bool :=
  ch = ' ' || ch = '\t' || ch = '\n' || ch = '\r' || ch = '\x0b' || ch = '\x0c'

/-- `str.strip()` on a character list. -/
def pyStripL (l : List Char) : List Char :=
  ((l.dropWhile isPySpace).reverse.dropWhile isPySpace).reverse

/-- `str.strip()`. -/
def pyStrip (s : String) : String := ⟨pyStripL s.data⟩

/-- `str.lower()` (character-wise; the app only compares ASCII emails). -/
def pyLower (s : String) : String := ⟨s.data.map Char.toLower⟩

/-- `str.split(",")` on a character list: cut at every comma, keeping
empty pieces (Python's `"".split(",") == [""]`). -/
def splitCommaAux (acc : List Char) : List Char → List (List Char)
  | [] => [acc.reverse]
  | ch :: rest =>
    if ch = ',' then acc.reverse :: splitCommaAux [] rest
    else splitCommaAux (ch :: acc) rest

/-- `str.split(",")`. -/
def pySplitComma (s : String) : List String :=
  (splitCommaAux [] s.data).map (⟨·⟩)

/-- Embedding of line 14:
`APP_ADMIN_EMAILS = [e.strip().lower() for e in secrets.split(",") if e.strip()]`. -/
def parseAdminEmails (secrets : String) : List String :=
  ((pySplitComma secrets).filter (fun e => pyStrip e != "")).map
    (fun e => pyLower (pyStrip e))

/-- Embedding of `is_admin` (lines 31-34): a non-empty email whose
lower-casing is in the allow-list grants admin, otherwise the session
role decides. -/
def is_admin (adminEmails : List String) (sessionRole : String)
    (email : String) : Bool :=
  if email != "" && adminEmails.contains (pyLower email) then true
  else sessionRole == "admin"

theorem pyLower_eq_empty_iff (t : String) : pyLower t = "" ↔ t = "" := by
  cases t with
  | mk data =>
    simp [pyLower, String.ext_iff]

theorem parseAdminEmails_ne_empty (secrets : String) :
    ∀ x ∈ parseAdminEmails secrets, x ≠ "" := by
  intro x hx
  simp only [parseAdminEmails, List.mem_map, List.mem_filter,
    bne_iff_ne, ne_eq] at hx
  obtain ⟨e, ⟨_, he⟩, rfl⟩ := hx
  intro hcon
  exact he ((pyLower_eq_empty_iff (pyStrip e)).mp hcon)

/-- C6: `is_admin(email)` returns true iff the lower-cased email is in
the configured allow-list (whose entries are themselves stripped and
lower-cased, making the comparison case-insensitive) or the session role
is `admin`. -/
theorem C6_is_admin_iff (secrets sessionRole email : String) :
    is_admin (parseAdminEmails secrets) sessionRole email = true ↔
      (pyLower email ∈ parseAdminEmails secrets ∨ sessionRole = "admin") := by
  unfold is_admin
  by_cases h : email = ""
  · subst h
    have hnot : pyLower "" ∉ parseAdminEmails secrets := fun hmem =>
      parseAdminEmails_ne_empty secrets _ hmem
        ((pyLower_eq_empty_iff "").mpr rfl)
    simp [hnot]
  · by_cases hc : pyLower email ∈ parseAdminEmails secrets
    · simp [h, hc]
    · simp [h, hc]

/-! ## Users, login and user creation -/

/-- A stored user row.  `id` and `role` are read back with
`user.get("id", ...)` / `user.get("role", "collector")`, so they are
modelled as possibly absent. -/
structure UserRec where
  id : Option String
  email : String
  password_hash : String
  role : Option String
deriving DecidableEq, Repr

/-- The persistence backend, chosen once at process start (lines 16-25):
remote when the table-service credentials are configured, local JSONL
files otherwise. -/
inductive Backend where
  | remote
  | local
deriving DecidableEq, Repr

/-- The user lookup of `login_box` (lines 164-168): the remote branch
filters with an exact `eq("email", email)` match, the local branch with
`r["email"].lower() == email.lower()`. -/
def lookupUsers (b : Backend) (users : List UserRec) (email : String) :
    List UserRec :=
  match b with
  | .remote => users.filter (fun r => r.email == email)
  | .local => users.filter (fun r => pyLower r.email == pyLower email)

/-- The session established on a successful login (lines 174-175):
`st.session_state.user = {email, id}` and `st.session_state.role`. -/
structure Session where
  email : String
  id : String
  role : String
deriving DecidableEq, Repr

/-- Outcome of a login attempt: the `st.error` message shown, or the
established session. -/
inductive LoginResult where
  | failure (msg : String)
  | success (s : Session)
deriving DecidableEq, Repr

/-- Embedding of `login_box` (lines 159-178).  `checkpw` abstracts
`bcrypt.checkpw` (an external library); `freshUuid` abstracts the
`str(uuid.uuid4())` default used when a stored row lacks an `id`. -/
def login (b : Backend) (users : List UserRec) (email pwd : String)
    (checkpw : String → String → Bool) (freshUuid : String) : LoginResult :=
  match lookupUsers b users email with
  | [] => .failure "User not found"
  | u :: _ =>
    if checkpw pwd u.password_hash then
      .success ⟨email, u.id.getD freshUuid, u.role.getD "collector"⟩
    else .failure "Incorrect password"

/-- A stored admin user with mixed-case email, for concrete tests. -/
def userAlice : UserRec := ⟨some "u1", "Alice@x.com", "hash1", some "admin"⟩

/-- A stored collector user, for concrete tests. -/
def userBob : UserRec := ⟨some "u2", "bob@x.com", "hash2", some "collector"⟩

/-- C7 counterexample: on the remote backend the lookup is an exact
string match, not case-insensitive.  A stored user `Alice@x.com` is not
found when logging in as `alice@x.com`, even though the passwords would
check: the claim's "case-insensitive email match in the active backend
(remote or local)" is false for the remote backend. -/
theorem C7_counterexample :
    login .remote [userAlice] "alice@x.com" "pw" (fun _ _ => true) "f0"
      = .failure "User not found" ∧
    pyLower userAlice.email = pyLower "alice@x.com" ∧
    (fun _ _ => true) "pw" userAlice.password_hash = true := by
  refine ⟨?_, ?_, rfl⟩ <;> decide

/-- C7 amended: the local backend looks users up case-insensitively but
the remote backend matches the email exactly (case-sensitively).  With
the backend's own match: no matching user or a failing password check
yields an unauthenticated failure and no session; on success the session
carries the entered email, the stored user's identifier (or a fresh UUID
when absent) and the stored role (default `collector`). -/
theorem C7_amended_login_behavior (b : Backend) (users : List UserRec)
    (email pwd : String) (checkpw : String → String → Bool)
    (freshUuid : String) :
    (lookupUsers .local users email
      = users.filter (fun r => pyLower r.email == pyLower email)) ∧
    (lookupUsers .remote users email
      = users.filter (fun r => r.email == email)) ∧
    (lookupUsers b users email = [] →
      login b users email pwd checkpw freshUuid = .failure "User not found") ∧
    (∀ u rest, lookupUsers b users email = u :: rest →
      checkpw pwd u.password_hash = false →
      login b users email pwd checkpw freshUuid
        = .failure "Incorrect password") ∧
    (∀ u rest, lookupUsers b users email = u :: rest →
      checkpw pwd u.password_hash = true →
      login b users email pwd checkpw freshUuid
        = .success ⟨email, u.id.getD freshUuid, u.role.getD "collector"⟩) ∧
    (∀ msg s, LoginResult.failure msg ≠ LoginResult.success s) := by
  refine ⟨rfl, rfl, ?_, ?_, ?_, ?_⟩
  · intro hnone
    unfold login
    rw [hnone]
  · intro u rest hsome hbad
    unfold login
    rw [hsome]
    simp [hbad]
  · intro u rest hsome hgood
    unfold login
    rw [hsome]
    simp [hgood]
  · intro msg s
    exact LoginResult.noConfusion

/-- Witness for the amended C7: a successful local login as `bob@x.com`
establishes the session with the stored identifier and role. -/
theorem C7_amended_login_behavior_witness :
    login .local [userBob] "bob@x.com" "pw" (fun _ _ => true) "f0"
      = .success ⟨"bob@x.com", "u2", "collector"⟩ := by
  have h := (C7_amended_login_behavior .local [userBob] "bob@x.com" "pw"
    (fun _ _ => true) "f0").2.2.2.2.1
  exact h userBob [] (by decide) rfl

/-- C8 counterexample: an unknown email reports "User not found" while a
known email with a wrong password reports "Incorrect password" — the two
failing outcomes are distinguishable, so the claim that the caller sees
the same generic failure in both cases is false on the code. -/
theorem C8_counterexample :
    login .local [userBob] "carol@x.com" "pw" (fun _ _ => false) "f0"
      = .failure "User not found" ∧
    login .local [userBob] "bob@x.com" "pw" (fun _ _ => false) "f0"
      = .failure "Incorrect password" ∧
    LoginResult.failure "User not found"
      ≠ LoginResult.failure "Incorrect password" := by
  refine ⟨?_, ?_, ?_⟩ <;> decide

/-- C8 amended: both failing cases are unauthenticated and establish no
session, but they surface distinct messages ("User not found" vs
"Incorrect password"), so the caller CAN distinguish an unknown email
from a wrong password — a user-enumeration signal. -/
theorem C8_amended_failures_distinguishable (b : Backend)
    (users1 users2 : List UserRec) (email1 email2 pwd1 pwd2 : String)
    (checkpw : String → String → Bool) (freshUuid : String)
    (u : UserRec) (rest : List UserRec)
    (h1 : lookupUsers b users1 email1 = [])
    (h2 : lookupUsers b users2 email2 = u :: rest)
    (h3 : checkpw pwd2 u.password_hash = false) :
    login b users1 email1 pwd1 checkpw freshUuid
      = .failure "User not found" ∧
    login b users2 email2 pwd2 checkpw freshUuid
      = .failure "Incorrect password" ∧
    login b users1 email1 pwd1 checkpw freshUuid
      ≠ login b users2 email2 pwd2 checkpw freshUuid ∧
    (∀ s, login b users1 email1 pwd1 checkpw freshUuid ≠ .success s) ∧
    (∀ s, login b users2 email2 pwd2 checkpw freshUuid ≠ .success s) := by
  have e1 : login b users1 email1 pwd1 checkpw freshUuid
      = .failure "User not found" := by
    unfold login; rw [h1]
  have e2 : login b users2 email2 pwd2 checkpw freshUuid
      = .failure "Incorrect password" := by
    unfold login; rw [h2]; simp [h3]
  refine ⟨e1, e2, ?_, ?_, ?_⟩
  · rw [e1, e2]; decide
  · intro s hs; rw [e1] at hs; exact LoginResult.noConfusion hs
  · intro s hs; rw [e2] at hs; exact LoginResult.noConfusion hs

/-- Witness for the amended C8 at concrete failing logins. -/
theorem C8_amended_failures_distinguishable_witness :
    login .local [userBob] "carol@x.com" "pw" (fun _ _ => false) "f0"
      ≠ login .local [userBob] "bob@x.com" "pw" (fun _ _ => false) "f0" := by
  have h := C8_amended_failures_distinguishable .local [userBob] [userBob]
    "carol@x.com" "bob@x.com" "pw" "pw" (fun _ _ => false) "f0" userBob []
    (by decide) (by decide) rfl
  exact h.2.2.1

/-- The caller email `admin_create_user_box` passes to `is_admin`
(line 189): the session user's email, or `""` when not logged in. -/
def callerEmail (sessionUser : Option Session) : String :=
  match sessionUser with
  | some u => u.email
  | none => ""

/-- Outcome shown by the create-user form. -/
inductive CreateUserResult where
  | adminsOnly
  | passwordError
  | created
deriving DecidableEq, Repr

/-- Embedding of `admin_create_user_box` (lines 180-200): reject
non-admin callers; reject mismatched or short (< 6) passwords; otherwise
store `{email: email.lower(), password_hash: hash_pwd(pwd1), role}`,
with a fresh id on the local backend (the remote table assigns its own).
`hashFn` abstracts `hash_pwd` (bcrypt, an external library). -/
def createUser (b : Backend) (adminEmails : List String)
    (sessionUser : Option Session) (sessionRole : String)
    (users : List UserRec) (email roleSel pwd1 pwd2 : String)
    (hashFn : String → String) (freshId : String) :
    List UserRec × CreateUserResult :=
  if is_admin adminEmails sessionRole (callerEmail sessionUser) = false then
    (users, .adminsOnly)
  else if pwd1 ≠ pwd2 ∨ pwd1.length < 6 then
    (users, .passwordError)
  else
    match b with
    | .remote =>
      (users ++ [⟨none, pyLower email, hashFn pwd1, some roleSel⟩], .created)
    | .local =>
      (users ++ [⟨some freshId, pyLower email, hashFn pwd1, some roleSel⟩],
        .created)

/-- C9: a non-admin caller gets an authorization error and the user list
is unchanged; an admin caller creates a user only when the two passwords
match and have length at least 6, and the stored row carries the hash of
the password (never the plaintext, as long as the hash differs from it),
appended to the unchanged prior list. -/
theorem C9_create_user_gating (b : Backend) (adminEmails : List String)
    (sessionUser : Option Session) (sessionRole : String)
    (users : List UserRec) (email roleSel pwd1 pwd2 : String)
    (hashFn : String → String) (freshId : String) :
    (is_admin adminEmails sessionRole (callerEmail sessionUser) = false →
      createUser b adminEmails sessionUser sessionRole users email roleSel
        pwd1 pwd2 hashFn freshId = (users, .adminsOnly)) ∧
    (is_admin adminEmails sessionRole (callerEmail sessionUser) = true →
      (pwd1 ≠ pwd2 ∨ pwd1.length < 6) →
      createUser b adminEmails sessionUser sessionRole users email roleSel
        pwd1 pwd2 hashFn freshId = (users, .passwordError)) ∧
    (is_admin adminEmails sessionRole (callerEmail sessionUser) = true →
      pwd1 = pwd2 → 6 ≤ pwd1.length →
      ∃ newRec : UserRec,
        createUser b adminEmails sessionUser sessionRole users email roleSel
          pwd1 pwd2 hashFn freshId = (users ++ [newRec], .created) ∧
        newRec.email = pyLower email ∧
        newRec.password_hash = hashFn pwd1 ∧
        newRec.role = some roleSel ∧
        (hashFn pwd1 ≠ pwd1 → newRec.password_hash ≠ pwd1)) := by
  refine ⟨?_, ?_, ?_⟩
  · intro hno
    unfold createUser
    rw [hno]
    simp
  · intro hyes hbad
    unfold createUser
    rw [hyes]
    simp only [Bool.true_eq_false, if_false]
    rw [if_pos hbad]
  · intro hyes heq hlen
    have hok : ¬(pwd1 ≠ pwd2 ∨ pwd1.length < 6) := by
      push_neg
      exact ⟨heq, hlen⟩
    cases b
    · refine ⟨⟨none, pyLower email, hashFn pwd1, some roleSel⟩, ?_, rfl,
        rfl, rfl, fun hne => hne⟩
      unfold createUser
      rw [hyes]
      simp only [Bool.true_eq_false, if_false]
      rw [if_neg hok]
    · refine ⟨⟨some freshId, pyLower email, hashFn pwd1, some roleSel⟩, ?_,
        rfl, rfl, rfl, fun hne => hne⟩
      unfold createUser
      rw [hyes]
      simp only [Bool.true_eq_false, if_false]
      rw [if_neg hok]

/-- Witness for C9: an admin session creates a collector user whose
stored row holds the lower-cased email and the hashed password. -/
theorem C9_create_user_gating_witness :
    (createUser .local ["boss@x.com"] (some ⟨"boss@x.com", "u0", "admin"⟩)
      "admin" [] "New@X.com" "collector" "secret1" "secret1"
      (fun p => String.append "h:" p) "u9").2 = .created := by
  obtain ⟨r, hr, -⟩ := (C9_create_user_gating .local ["boss@x.com"]
    (some ⟨"boss@x.com", "u0", "admin"⟩) "admin" [] "New@X.com" "collector"
    "secret1" "secret1" (fun p => String.append "h:" p) "u9").2.2
    (by decide) rfl (by decide)
  rw [hr]

/-! ## Admin update of `credit_history` (local backend) -/

/-- A stored applicant with only its `credit_history` replaced. -/
def withCredit (r : StoredApplicant) (x : String) : StoredApplicant :=
  { r with fields := { r.fields with credit_history := x } }

/-- Embedding of the local-backend update of `admin_page` (lines
366-376): mutate `rows[idx]["credit_history"]` in memory and rewrite the
whole file, i.e. replace the record at the given index and keep every
other row. -/
def adminUpdateCredit : List StoredApplicant → Nat → String →
    List StoredApplicant
  | [], _, _ => []
  | r :: rs, 0, x => withCredit r x :: rs
  | r :: rs, Nat.succ n, x => r :: adminUpdateCredit rs n x

/-- Two applicant records agree on every field other than
`credit_history`. -/
def creditFrame (a b : Applicant) : Prop :=
  a.region = b.region ∧ a.batch = b.batch ∧ a.zone = b.zone ∧
  a.woreda = b.woreda ∧ a.kebele = b.kebele ∧
  a.first_name = b.first_name ∧ a.father_name = b.father_name ∧
  a.grandfather_name = b.grandfather_name ∧
  a.date_of_birth = b.date_of_birth ∧
  a.date_collected = b.date_collected ∧ a.sex = b.sex ∧
  a.applicant_address = b.applicant_address ∧
  a.has_business_license = b.has_business_license ∧
  a.trade_license_number = b.trade_license_number ∧
  a.trade = b.trade ∧
  a.registration_number = b.registration_number ∧
  a.tin_number = b.tin_number ∧
  a.date_of_business_license = b.date_of_business_license ∧
  a.enterprise_category = b.enterprise_category ∧
  a.ownership_form = b.ownership_form ∧
  a.business_sector = b.business_sector ∧
  a.number_of_owners = b.number_of_owners ∧
  a.owners_names = b.owners_names ∧
  a.registered_address = b.registered_address ∧
  a.business_premise = b.business_premise ∧
  a.male_employees = b.male_employees ∧
  a.female_employees = b.female_employees ∧
  a.business_capital_etb = b.business_capital_etb ∧
  a.monthly_revenue_etb = b.monthly_revenue_etb ∧
  a.annual_revenue_last3 = b.annual_revenue_last3 ∧
  a.net_profit_last3 = b.net_profit_last3 ∧
  a.financing_required_etb = b.financing_required_etb ∧
  a.source_of_repayment = b.source_of_repayment ∧
  a.purpose_of_funds = b.purpose_of_funds ∧
  a.guarantor_first_name = b.guarantor_first_name ∧
  a.guarantor_father_name = b.guarantor_father_name ∧
  a.guarantor_grandfather_name = b.guarantor_grandfather_name ∧
  a.guarantor_phone = b.guarantor_phone ∧
  a.guarantor_monthly_income = b.guarantor_monthly_income ∧
  a.cbe_account_number = b.cbe_account_number ∧
  a.cbe_branch = b.cbe_branch ∧ a.cbe_city = b.cbe_city ∧
  a.mode_of_finance = b.mode_of_finance

theorem adminUpdateCredit_length (rows : List StoredApplicant) (i : Nat)
    (x : String) : (adminUpdateCredit rows i x).length = rows.length := by
  induction rows generalizing i with
  | nil => rfl
  | cons r rs ih =>
    cases i with
    | zero => rfl
    | succ n => simp [adminUpdateCredit, ih n]

theorem adminUpdateCredit_get_same (rows : List StoredApplicant) (i : Nat)
    (x : String) (r0 : StoredApplicant) (h : rows.get? i = some r0) :
    (adminUpdateCredit rows i x).get? i = some (withCredit r0 x) := by
  induction rows generalizing i with
  | nil => simp at h
  | cons r rs ih =>
    cases i with
    | zero =>
      simp only [List.get?] at h
      cases h
      rfl
    | succ n =>
      simp only [List.get?] at h
      exact ih n h

theorem adminUpdateCredit_get_other (rows : List StoredApplicant)
    (i : Nat) (x : String) :
    ∀ j, j ≠ i → (adminUpdateCredit rows i x).get? j = rows.get? j := by
  induction rows generalizing i with
  | nil => intro j _; rfl
  | cons r rs ih =>
    intro j hj
    cases i with
    | zero =>
      cases j with
      | zero => exact absurd rfl hj
      | succ m => rfl
    | succ n =>
      cases j with
      | zero => rfl
      | succ m =>
        have : m ≠ n := fun hc => hj (by rw [hc])
        exact ih n m this

/-- C5: updating `credit_history` of the record at a given position to X
and reading it back yields that record with `credit_history = X`, its
identifier, `collected_by` and every other applicant field unchanged;
every other record in the store is untouched and the store keeps its
length. -/
theorem C5_update_credit_history_frame (rows : List StoredApplicant)
    (i : Nat) (x : String) (r0 : StoredApplicant)
    (h : rows.get? i = some r0) :
    (adminUpdateCredit rows i x).get? i = some (withCredit r0 x) ∧
    (withCredit r0 x).fields.credit_history = x ∧
    (withCredit r0 x).id = r0.id ∧
    (withCredit r0 x).collected_by = r0.collected_by ∧
    creditFrame (withCredit r0 x).fields r0.fields ∧
    (∀ j, j ≠ i → (adminUpdateCredit rows i x).get? j = rows.get? j) ∧
    (adminUpdateCredit rows i x).length = rows.length := by
  refine ⟨adminUpdateCredit_get_same rows i x r0 h, rfl, rfl, rfl, ?_,
    adminUpdateCredit_get_other rows i x, adminUpdateCredit_length rows i x⟩
  unfold creditFrame withCredit
  repeat' constructor

/-! ## Identifier generation

Applicant rows get `id = str(ULID())` (line 312); local user rows get
`rec["id"] = str(uuid.uuid4())` (line 198).  Randomness is modelled as
an explicit entropy input: a ULID draws a 48-bit millisecond timestamp
and 80 random bits, a UUID4 draws 128 random bits (of which 6 are then
overwritten by version/variant). -/

/-- Crockford's base32 alphabet used by ULID. -/
def crockford : List Char := "0123456789ABCDEFGHJKMNPQRSTVWXYZ".data

/-- One Crockford digit. -/
def b32digit (n : Nat) : Char := crockford.getD (n % 32) '0'

/-- Fixed-width big-endian base-32 rendering. -/
def encodeB32 : Nat → Nat → List Char
  | 0, _ => []
  | w + 1, n => encodeB32 w (n / 32) ++ [b32digit n]

/-- `str(ULID())` from python-ulid: the 128-bit value (48-bit millisecond
timestamp then 80 random bits) in fixed-width 26-character Crockford
base32. -/
def ulidString (timestampMs randomness : Nat) : String :=
  ⟨encodeB32 26 (timestampMs * 2 ^ 80 + randomness)⟩

/-- One lowercase hex digit. -/
def hexDigit (n : Nat) : Char := "0123456789abcdef".data.getD (n % 16) '0'

/-- Fixed-width big-endian hexadecimal rendering. -/
def encodeHex : Nat → Nat → List Char
  | 0, _ => []
  | w + 1, n => encodeHex w (n / 16) ++ [hexDigit n]

/-- CPython's `uuid.UUID(bytes=os.urandom(16), version=4)`: force the
version nibble (bits 76-79) to `4` and the variant bits (62-63) to
`0b10` in the 128 random bits. -/
def uuid4Val (r : Nat) : Nat :=
  let x := r % 2 ^ 128
  let x1 := x - x / 2 ^ 76 % 16 * 2 ^ 76 + 4 * 2 ^ 76
  x1 - x1 / 2 ^ 62 % 4 * 2 ^ 62 + 2 * 2 ^ 62

/-- `str(uuid.uuid4())`: 32 lowercase hex digits in 8-4-4-4-12 groups. -/
def uuid4String (r : Nat) : String :=
  let d := encodeHex 32 (uuid4Val r)
  ⟨d.take 8 ++ '-' :: ((d.drop 8).take 4 ++ '-' ::
    ((d.drop 12).take 4 ++ '-' :: ((d.drop 16).take 4 ++ '-' :: d.drop 20)))⟩

/-- The ids assigned by a sequence of local-backend user creations, fed
by the OS entropy stream. -/
def createdLocalUserIds (entropy : Nat → Nat) (n : Nat) : List String :=
  (List.range n).map fun i => uuid4String (entropy i)

/-- An entropy stream whose first draw is all-ones and whose second draw
is zero — perfectly possible outputs of `os.urandom`. -/
def entropyDescending : Nat → Nat := fun i => if i = 0 then 2 ^ 128 - 1 else 0

/-- C4 counterexample: local user identifiers come from `uuid.uuid4()`,
which carries no creation-time component.  With an entropy stream whose
first draw is large and second is small, the second issued id sorts
lexically *before* the first, so sorting the issued identifiers lexically
does not yield creation order (for users the claim is false; they are
merely unique when the draws differ). -/
theorem C4_counterexample :
    createdLocalUserIds entropyDescending 2
      = [uuid4String (2 ^ 128 - 1), uuid4String 0] ∧
    uuid4String 0 < uuid4String (2 ^ 128 - 1) ∧
    uuid4String 0 ≠ uuid4String (2 ^ 128 - 1) := by
  refine ⟨rfl, ?_, ?_⟩
  · rw [String.lt_iff_toList_lt]
    decide
  · decide

theorem encodeB32_length (w n : Nat) : (encodeB32 w n).length = w := by
  induction w generalizing n with
  | zero => rfl
  | succ w ih => simp [encodeB32, ih]

theorem crockford_strict_mono :
    ∀ i j : Fin 32, i < j → crockford.getD i '0' < crockford.getD j '0' := by
  decide

theorem b32digit_lt {a b : Nat} (h : a % 32 < b % 32) :
    b32digit a < b32digit b := by
  have ha : a % 32 < 32 := Nat.mod_lt _ (by norm_num)
  have hb : b % 32 < 32 := Nat.mod_lt _ (by norm_num)
  exact crockford_strict_mono ⟨a % 32, ha⟩ ⟨b % 32, hb⟩ h

theorem lex_append_of_lex {l1 l2 r1 r2 : List Char}
    (h : List.Lex (· < ·) l1 l2) (hlen : l1.length = l2.length) :
    List.Lex (· < ·) (l1 ++ r1) (l2 ++ r2) := by
  induction h with
  | nil => simp at hlen
  | cons h ih => exact List.Lex.cons (ih (by simpa using hlen))
  | rel h => exact List.Lex.rel h

theorem lex_middle (p : List Char) (x y : Char) (r1 r2 : List Char)
    (h : x < y) : List.Lex (· < ·) (p ++ x :: r1) (p ++ y :: r2) := by
  induction p with
  | nil => exact List.Lex.rel h
  | cons c ps ih => exact List.Lex.cons ih

theorem encodeB32_lex (w : Nat) :
    ∀ a b : Nat, a < b → b < 32 ^ w →
      List.Lex (· < ·) (encodeB32 w a) (encodeB32 w b) := by
  induction w with
  | zero =>
    intro a b hab hb
    simp [pow_zero] at hb
    omega
  | succ w ih =>
    intro a b hab hb
    by_cases hq : a / 32 < b / 32
    · have hb32 : b < 32 * 32 ^ w := by
        rw [pow_succ] at hb
        rw [Nat.mul_comm]
        exact hb
      have hb' : b / 32 < 32 ^ w := Nat.div_lt_of_lt_mul hb32
      exact lex_append_of_lex (ih _ _ hq hb') (by simp [encodeB32_length])
    · have hq' : a / 32 = b / 32 := by
        have : a / 32 ≤ b / 32 := Nat.div_le_div_right (le_of_lt hab)
        omega
      have hm : a % 32 < b % 32 := by
        have h1 := Nat.div_add_mod a 32
        have h2 := Nat.div_add_mod b 32
        omega
      show List.Lex (· < ·) (encodeB32 w (a / 32) ++ [b32digit a])
        (encodeB32 w (b / 32) ++ [b32digit b])
      rw [hq']
      exact lex_middle _ _ _ [] [] (b32digit_lt hm)

theorem ulidString_lt {t1 t2 r1 r2 : Nat} (ht : t1 < t2) (ht2 : t2 < 2 ^ 48)
    (hr1 : r1 < 2 ^ 80) (hr2 : r2 < 2 ^ 80) :
    ulidString t1 r1 < ulidString t2 r2 := by
  rw [String.lt_iff_toList_lt]
  show List.Lex (· < ·) (encodeB32 26 (t1 * 2 ^ 80 + r1))
    (encodeB32 26 (t2 * 2 ^ 80 + r2))
  have hv : t1 * 2 ^ 80 + r1 < t2 * 2 ^ 80 + r2 := by
    have h1 : t1 * 2 ^ 80 + r1 < (t1 + 1) * 2 ^ 80 := by
      rw [add_mul, one_mul]
      omega
    have h2 : (t1 + 1) * 2 ^ 80 ≤ t2 * 2 ^ 80 := Nat.mul_le_mul_right _ ht
    omega
  have hb : t2 * 2 ^ 80 + r2 < 32 ^ 26 := by
    have h3 : t2 * 2 ^ 80 + r2 < (t2 + 1) * 2 ^ 80 := by
      rw [add_mul, one_mul]
      omega
    have h4 : (t2 + 1) * 2 ^ 80 ≤ 2 ^ 48 * 2 ^ 80 := Nat.mul_le_mul_right _ ht2
    have h5 : (2 : Nat) ^ 48 * 2 ^ 80 = 2 ^ 128 := by rw [← pow_add]
    have h6 : (32 : Nat) ^ 26 = 2 ^ 130 := by norm_num
    have h7 : (2 : Nat) ^ 128 < 2 ^ 130 := by norm_num
    omega
  exact encodeB32_lex 26 _ _ hv hb

/-- C4 amended: applicant identifiers (ULIDs) created at strictly
increasing millisecond timestamps are lexically sorted in creation order
and pairwise distinct.  (User identifiers are UUID4 values: distinct
whenever the draws differ but with no ordering guarantee, as the
counterexample shows.) -/
theorem C4_amended_ulid_ids_sorted (creations : List (Nat × Nat))
    (hmono : List.Pairwise (fun p q => p.1 < q.1) creations)
    (hbound : ∀ p ∈ creations, p.1 < 2 ^ 48 ∧ p.2 < 2 ^ 80) :
    List.Sorted (· < ·) (creations.map fun p => ulidString p.1 p.2) ∧
    (creations.map fun p => ulidString p.1 p.2).Nodup := by
  have hs : List.Sorted (· < ·)
      (creations.map fun p => ulidString p.1 p.2) := by
    show List.Pairwise _ _
    rw [List.pairwise_map]
    refine List.Pairwise.imp_of_mem ?_ hmono
    intro p q hp hq hlt
    obtain ⟨hp1, hp2⟩ := hbound p hp
    obtain ⟨hq1, hq2⟩ := hbound q hq
    exact ulidString_lt hlt hq1 hp2 hq2
  exact ⟨hs, hs.imp ne_of_lt⟩

/-- Witness for the amended C4: two applicant creations at timestamps
1 < 2 yield lexically sorted identifiers. -/
theorem C4_amended_ulid_ids_sorted_witness :
    List.Sorted (· < ·)
      (([((1 : Nat), (5 : Nat)), (2, 0)]).map fun p =>
        ulidString p.1 p.2) :=
  (C4_amended_ulid_ids_sorted [(1, 5), (2, 0)] (by decide) (by decide)).1

/-- A concrete two-record store for the C5 witness. -/
def storeTwo : List StoredApplicant :=
  [⟨"01A", aBase, "u1"⟩, ⟨"01B", aEmptyStrings, "u1"⟩]

/-- Witness for C5: updating record 1 of a two-record store. -/
theorem C5_update_credit_history_frame_witness :
    (adminUpdateCredit storeTwo 1 "good").get? 1
      = some (withCredit ⟨"01B", aEmptyStrings, "u1"⟩ "good") ∧
    (adminUpdateCredit storeTwo 1 "good").get? 0 = storeTwo.get? 0 := by
  have h := C5_update_credit_history_frame storeTwo 1 "good"
    ⟨"01B", aEmptyStrings, "u1"⟩ rfl
  exact ⟨h.1, h.2.2.2.2.2.1 0 (by decide)⟩

/-! ## JSONL persistence: `save_jsonl` / `load_jsonl` (lines 48-59)

The local backend's file is a character sequence.  `save_jsonl` appends
`json.dumps(obj) + "\n"`; `load_jsonl` iterates the file's lines and
parses each non-blank one with `json.loads`.  Every record the app
persists is a flat JSON object of strings, booleans, integers, floats
(six per applicant record: the ETB amounts and incomes of line 321-325)
and nulls, so `json.dumps`/`json.loads` are modelled for that shape,
with the string escapes Python emits for ASCII text (`\"`, `\\`, `\n`,
`\r`, `\t`).  A float value is identified with its canonical
`float.__repr__` token — the exact text `json.dumps` emits and
`json.loads` reads back (`repr` is injective on floats and round-trips
through `float()`), so the textual save/load pipeline is verified
without re-deriving IEEE-754 shortest-repr arithmetic. -/

/-- A Python float as `float.__repr__` (and hence `json.dumps`) renders
it: the plain form `[-]ddd.d…` (always a decimal point and at least one
fractional digit, e.g. `1000.0`, `123.45`, `-0.5`) used for magnitudes
in `[1e-4, 1e16)` and zero, or the scientific form `[-]d[.d…]e±dd`
(e.g. `1e-05`, `1.5e+20`) used outside that range. -/
inductive PyFloat where
  | plain (neg : Bool) (ip : Nat) (f0 : Fin 10) (frest : List (Fin 10))
  | sci (neg : Bool) (ip : Nat) (frac : List (Fin 10)) (eneg : Bool)
      (ev : Nat)
deriving DecidableEq, Repr

/-- A flat JSON value as stored by the app. -/
inductive JLit where
  | jnull
  | jbool (b : Bool)
  | jint (n : Int)
  | jfloat (x : PyFloat)
  | jstr (s : List Char)
deriving DecidableEq, Repr

/-- A flat JSON object: ordered key/value pairs (Python dicts preserve
insertion order, and `json.dumps`/`json.loads` keep it). -/
abbrev JRec := List (List Char × JLit)

/-- `json.dumps` escaping of one string character. -/
def escChar (ch : Char) : List Char :=
  if ch = '"' then ['\\', '"']
  else if ch = '\\' then ['\\', '\\']
  else if ch = '\n' then ['\\', 'n']
  else if ch = '\r' then ['\\', 'r']
  else if ch = '\t' then ['\\', 't']
  else [ch]

/-- `json.dumps` escaping of a string body. -/
def escStr : List Char → List Char
  | [] => []
  | ch :: rest => escChar ch ++ escStr rest

/-- One decimal digit character. -/
def digitChar (n : Nat) : Char := "0123456789".data.getD (n % 10) '0'

/-- Decimal rendering of a natural number (`str(n)`). -/
def natToChars (n : Nat) : List Char :=
  if n < 10 then [digitChar n]
  else natToChars (n / 10) ++ [digitChar n]
termination_by n
decreasing_by exact Nat.div_lt_self (by omega) (by omega)

/-- Decimal rendering of an integer (`str(n)`). -/
def intToChars (n : Int) : List Char :=
  if n < 0 then '-' :: natToChars (-n).toNat else natToChars n.toNat

/-- One fractional digit character. -/
def digitCharF (d : Fin 10) : Char := digitChar d.val

/-- The fractional digits of a float, as written. -/
def fracChars (fs : List (Fin 10)) : List Char := fs.map digitCharF

/-- Exponent digits: Python zero-pads the exponent to two digits
(`1e-05`, `1e+16`, `1e+100`). -/
def expChars (ev : Nat) : List Char :=
  if ev < 10 then '0' :: [digitChar ev] else natToChars ev

/-- A float token split as sign, integer-part value, and the text after
the integer digits (fraction and/or exponent). -/
def floatBody : PyFloat → Bool × Nat × List Char
  | .plain neg ip f0 frest => (neg, ip, '.' :: fracChars (f0 :: frest))
  | .sci neg ip frac eneg ev =>
    (neg, ip,
      (if frac.isEmpty then [] else '.' :: fracChars frac) ++
        'e' :: (if eneg then '-' else '+') :: expChars ev)

/-- `float.__repr__` / `json.dumps` rendering of a float. -/
def dumpFloat (x : PyFloat) : List Char :=
  (if (floatBody x).1 then ['-'] else []) ++
    natToChars (floatBody x).2.1 ++ (floatBody x).2.2

/-- `json.dumps` of one value. -/
def dumpLit : JLit → List Char
  | .jnull => "null".data
  | .jbool true => "true".data
  | .jbool false => "false".data
  | .jint n => intToChars n
  | .jfloat x => dumpFloat x
  | .jstr s => '"' :: (escStr s ++ ['"'])

/-- `json.dumps` of one `"key": value` pair (default separators). -/
def dumpPair (p : List Char × JLit) : List Char :=
  '"' :: (escStr p.1 ++ '"' :: ':' :: ' ' :: dumpLit p.2)

/-- The pairs joined with `", "`. -/
def dumpPairs : JRec → List Char
  | [] => []
  | [p] => dumpPair p
  | p :: rest => dumpPair p ++ [',', ' '] ++ dumpPairs rest

/-- `json.dumps` of the whole flat object. -/
def dumpRec (r : JRec) : List Char := '{' :: (dumpPairs r ++ ['}'])

/-- Inverse of `escChar` on the character after a backslash. -/
def unescChar (ch : Char) : Option Char :=
  if ch = '"' then some '"'
  else if ch = '\\' then some '\\'
  else if ch = 'n' then some '\n'
  else if ch = 'r' then some '\r'
  else if ch = 't' then some '\t'
  else none

/-- Parse a JSON string body up to its closing quote; returns the
decoded body and the remainder after the quote. -/
def parseJString : List Char → Option (List Char × List Char)
  | [] => none
  | ch :: rest =>
    if ch = '"' then some ([], rest)
    else if ch = '\\' then
      match rest with
      | [] => none
      | e :: rest2 =>
        match unescChar e, parseJString rest2 with
        | some c2, some (s, rem) => some (c2 :: s, rem)
        | _, _ => none
    else
      match parseJString rest with
      | some (s, rem) => some (ch :: s, rem)
      | none => none

/-- Split off a maximal run of decimal digits. -/
def takeDigits : List Char → (List Char × List Char)
  | [] => ([], [])
  | ch :: rest =>
    if ch.isDigit then
      let p := takeDigits rest
      (ch :: p.1, p.2)
    else ([], ch :: rest)

/-- Numeric value of one digit character. -/
def digitVal (ch : Char) : Nat := ch.toNat - '0'.toNat

/-- Numeric value of a digit run. -/
def digitsToNat (ds : List Char) : Nat :=
  ds.foldl (fun acc ch => 10 * acc + digitVal ch) 0

/-- One fractional digit value. -/
def digitFin (c : Char) : Fin 10 := ⟨digitVal c % 10, Nat.mod_lt _ (by norm_num)⟩

/-- Parse a signed exponent (`+dd` / `-dd`) after an `e`. -/
def parseExp (rem : List Char) : Option (Bool × Nat × List Char) :=
  match rem with
  | [] => none
  | s :: rem2 =>
    if s = '+' then
      match takeDigits rem2 with
      | ([], _) => none
      | (es, rem3) => some (false, digitsToNat es, rem3)
    else if s = '-' then
      match takeDigits rem2 with
      | ([], _) => none
      | (es, rem3) => some (true, digitsToNat es, rem3)
    else none

/-- Parse what follows a number's integer digits.  As `json.loads`
does, a token continuing with `.` or `e` is a float, otherwise an
integer. -/
def parseNumTail (neg : Bool) (ip : Nat) (rem : List Char) :
    Option (JLit × List Char) :=
  match rem with
  | [] => some (.jint (if neg then -(ip : Int) else (ip : Int)), [])
  | c :: rem2 =>
    if c = '.' then
      match takeDigits rem2 with
      | ([], _) => none
      | (f :: fs, rem3) =>
        match rem3 with
        | [] =>
          some (.jfloat (.plain neg ip (digitFin f) (fs.map digitFin)), [])
        | c2 :: rem4 =>
          if c2 = 'e' then
            match parseExp rem4 with
            | none => none
            | some (eneg, ev, rem5) =>
              some (.jfloat (.sci neg ip ((f :: fs).map digitFin) eneg ev),
                rem5)
          else
            some (.jfloat (.plain neg ip (digitFin f) (fs.map digitFin)),
              c2 :: rem4)
    else if c = 'e' then
      match parseExp rem2 with
      | none => none
      | some (eneg, ev, rem3) =>
        some (.jfloat (.sci neg ip [] eneg ev), rem3)
    else some (.jint (if neg then -(ip : Int) else (ip : Int)), c :: rem2)

/-- Parse one JSON literal (null, bool, number or string). -/
def parseLit (l : List Char) : Option (JLit × List Char) :=
  match l with
  | [] => none
  | ch :: rest =>
    if ch = '"' then
      match parseJString rest with
      | some (s, rem) => some (.jstr s, rem)
      | none => none
    else if ch = 'n' then
      match rest with
      | 'u' :: 'l' :: 'l' :: rem => some (.jnull, rem)
      | _ => none
    else if ch = 't' then
      match rest with
      | 'r' :: 'u' :: 'e' :: rem => some (.jbool true, rem)
      | _ => none
    else if ch = 'f' then
      match rest with
      | 'a' :: 'l' :: 's' :: 'e' :: rem => some (.jbool false, rem)
      | _ => none
    else if ch = '-' then
      match takeDigits rest with
      | ([], _) => none
      | (ds, rem) => parseNumTail true (digitsToNat ds) rem
    else
      match takeDigits (ch :: rest) with
      | ([], _) => none
      | (ds, rem) => parseNumTail false (digitsToNat ds) rem

/-- Parse the `"k": v` pairs of a non-empty object, consuming the
closing brace; `fuel` bounds the number of pairs. -/
def parsePairs : Nat → List Char → Option (JRec × List Char)
  | 0, _ => none
  | fuel + 1, l =>
    match l with
    | '"' :: rest =>
      match parseJString rest with
      | none => none
      | some (k, r1) =>
        match r1 with
        | ':' :: ' ' :: r2 =>
          match parseLit r2 with
          | none => none
          | some (v, r3) =>
            match r3 with
            | ',' :: ' ' :: r4 =>
              match parsePairs fuel r4 with
              | some (ps, r5) => some ((k, v) :: ps, r5)
              | none => none
            | '}' :: r4 => some ([(k, v)], r4)
            | _ => none
        | _ => none
    | _ => none

/-- `json.loads` of one line holding a flat object (the only shape the
app writes); fails on anything else, as `json.loads` raises. -/
def parseRec (l : List Char) : Option JRec :=
  match l with
  | '{' :: '}' :: rest => if rest = [] then some [] else none
  | '{' :: rest =>
    match parsePairs (rest.length + 1) rest with
    | some (ps, []) => some ps
    | _ => none
  | _ => none

/-- Whitespace skipped by `json.loads` around a document. -/
def isJsonWs (ch : Char) : Bool :=
  ch = ' ' || ch = '\t' || ch = '\n' || ch = '\r'

/-- Strip characters satisfying `p` from both ends. -/
def stripWith (p : Char → Bool) (l : List Char) : List Char :=
  ((l.dropWhile p).reverse.dropWhile p).reverse

/-- The whitespace `json.loads` tolerates around the object. -/
def jsonStripL (l : List Char) : List Char := stripWith isJsonWs l

/-- `save_jsonl` (lines 48-50): append `json.dumps(obj) + "\n"` to the
file. -/
def save_jsonl (content : List Char) (r : JRec) : List Char :=
  content ++ dumpRec r ++ ['\n']

/-- Python file line iteration (`for line in f`): chunks ending in
`'\n'`, plus a final chunk without one if the file does not end in a
newline. -/
def linesAux (acc : List Char) : List Char → List (List Char)
  | [] => if acc = [] then [] else [acc.reverse]
  | ch :: rest =>
    if ch = '\n' then (acc.reverse ++ ['\n']) :: linesAux [] rest
    else linesAux (ch :: acc) rest

/-- The lines of a file, newline included. -/
def pyLines (content : List Char) : List (List Char) := linesAux [] content

/-- Parse every line with `json.loads`; any failure aborts the load (the
source would raise). -/
def parseAll : List (List Char) → Option (List JRec)
  | [] => some []
  | l :: rest =>
    match parseRec (jsonStripL l), parseAll rest with
    | some r, some rs => some (r :: rs)
    | _, _ => none

/-- `load_jsonl` (lines 52-59): parse every line whose `strip()` is
non-empty. -/
def load_jsonl (content : List Char) : Option (List JRec) :=
  parseAll ((pyLines content).filter fun l => !(pyStripL l).isEmpty)

theorem parseJString_escStr (s : List Char) (rest : List Char) :
    parseJString (escStr s ++ '"' :: rest) = some (s, rest) := by
  induction s with
  | nil =>
    simp only [escStr, List.nil_append]
    unfold parseJString
    simp
  | cons ch s ih =>
    by_cases h1 : ch = '"'
    · subst h1
      show parseJString ('\\' :: '"' :: (escStr s ++ '"' :: rest)) = _
      unfold parseJString
      simp [unescChar, ih]
    · by_cases h2 : ch = '\\'
      · subst h2
        show parseJString ('\\' :: '\\' :: (escStr s ++ '"' :: rest)) = _
        unfold parseJString
        simp [unescChar, ih]
      · by_cases h3 : ch = '\n'
        · subst h3
          show parseJString ('\\' :: 'n' :: (escStr s ++ '"' :: rest)) = _
          unfold parseJString
          simp [unescChar, ih]
        · by_cases h4 : ch = '\r'
          · subst h4
            show parseJString ('\\' :: 'r' :: (escStr s ++ '"' :: rest)) = _
            unfold parseJString
            simp [unescChar, ih]
          · by_cases h5 : ch = '\t'
            · subst h5
              show parseJString ('\\' :: 't' :: (escStr s ++ '"' :: rest)) = _
              unfold parseJString
              simp [unescChar, ih]
            · have hesc : escStr (ch :: s) = ch :: escStr s := by
                simp [escStr, escChar, h1, h2, h3, h4, h5]
              rw [hesc, List.cons_append]
              unfold parseJString
              rw [if_neg h1, if_neg h2, ih]

theorem digitChar_isDigit (n : Nat) : (digitChar n).isDigit = true := by
  have h : n % 10 < 10 := Nat.mod_lt _ (by norm_num)
  unfold digitChar
  revert h
  generalize n % 10 = m
  intro h
  interval_cases m <;> decide

theorem digitVal_digitChar (n : Nat) : digitVal (digitChar n) = n % 10 := by
  have h : n % 10 < 10 := Nat.mod_lt _ (by norm_num)
  unfold digitChar digitVal
  revert h
  generalize n % 10 = m
  intro h
  interval_cases m <;> decide

theorem natToChars_all_digits (n : Nat) :
    ∀ c ∈ natToChars n, c.isDigit = true := by
  induction n using Nat.strong_induction_on with
  | _ n ih =>
    rw [natToChars]
    by_cases h : n < 10
    · simp [h, digitChar_isDigit]
    · simp only [h, if_false]
      intro c hc
      rcases List.mem_append.mp hc with hl | hr
      · exact ih (n / 10) (Nat.div_lt_self (by omega) (by omega)) c hl
      · simp at hr
        rw [hr]
        exact digitChar_isDigit n

theorem natToChars_ne_nil (n : Nat) : natToChars n ≠ [] := by
  rw [natToChars]
  by_cases h : n < 10 <;> simp [h]

theorem digitsToNat_natToChars (n : Nat) :
    digitsToNat (natToChars n) = n := by
  induction n using Nat.strong_induction_on with
  | _ n ih =>
    rw [natToChars]
    by_cases h : n < 10
    · simp [h, digitsToNat, digitVal_digitChar, Nat.mod_eq_of_lt h]
    · simp only [h, if_false, digitsToNat, List.foldl_append, List.foldl]
      have := ih (n / 10) (Nat.div_lt_self (by omega) (by omega))
      simp only [digitsToNat] at this
      rw [this, digitVal_digitChar]
      omega

/-- Whether a character list starts with a decimal digit. -/
def headDigit : List Char → Bool
  | [] => false
  | c :: _ => c.isDigit

theorem takeDigits_digits_append (ds rest : List Char)
    (hds : ∀ c ∈ ds, c.isDigit = true) (hrest : headDigit rest = false) :
    takeDigits (ds ++ rest) = (ds, rest) := by
  induction ds with
  | nil =>
    cases rest with
    | nil => rfl
    | cons c t =>
      simp only [headDigit] at hrest
      simp [takeDigits, hrest]
  | cons d ds ih =>
    have hd : d.isDigit = true := hds d (by simp)
    simp [takeDigits, hd, ih (fun c hc => hds c (by simp [hc]))]

/-- Whether a character list starts with something that would extend a
number token: a digit, a decimal point, or an exponent marker. -/
def headNumExt : List Char → Bool
  | [] => false
  | c :: _ => c.isDigit || c = '.' || c = 'e'

theorem headNumExt_false_facts {c : Char} {t : List Char}
    (h : headNumExt (c :: t) = false) :
    c.isDigit = false ∧ ¬(c = '.') ∧ ¬(c = 'e') := by
  simp only [headNumExt, Bool.or_eq_false_iff,
    decide_eq_false_iff_not] at h
  exact ⟨h.1.1, h.1.2, h.2⟩

theorem headDigit_of_headNumExt {l : List Char}
    (h : headNumExt l = false) : headDigit l = false := by
  cases l with
  | nil => rfl
  | cons c t =>
    obtain ⟨h1, -, -⟩ := headNumExt_false_facts h
    simp [headDigit, h1]

theorem digitFin_digitCharF (d : Fin 10) : digitFin (digitCharF d) = d := by
  apply Fin.ext
  show digitVal (digitChar d.val) % 10 = d.val
  rw [digitVal_digitChar]
  have := d.isLt
  omega

theorem map_digitFin_fracChars (fs : List (Fin 10)) :
    (fracChars fs).map digitFin = fs := by
  induction fs with
  | nil => rfl
  | cons d fs ih =>
    show digitFin (digitCharF d) :: (fracChars fs).map digitFin = d :: fs
    rw [digitFin_digitCharF, ih]

theorem fracChars_all_digits (fs : List (Fin 10)) :
    ∀ c ∈ fracChars fs, c.isDigit = true := by
  intro c hc
  simp only [fracChars, List.mem_map] at hc
  obtain ⟨d, -, rfl⟩ := hc
  exact digitChar_isDigit d.val

theorem expChars_all_digits (ev : Nat) :
    ∀ c ∈ expChars ev, c.isDigit = true := by
  intro c hc
  unfold expChars at hc
  split_ifs at hc
  · rcases List.mem_cons.mp hc with h | h
    · subst h; decide
    · simp at h
      subst h
      exact digitChar_isDigit ev
  · exact natToChars_all_digits ev c hc

theorem expChars_ne_nil (ev : Nat) : expChars ev ≠ [] := by
  unfold expChars
  split_ifs
  · simp
  · exact natToChars_ne_nil ev

theorem digitsToNat_expChars (ev : Nat) : digitsToNat (expChars ev) = ev := by
  unfold expChars
  by_cases h : ev < 10
  · simp only [h, if_true, digitsToNat, List.foldl]
    show 10 * (10 * 0 + digitVal '0') + digitVal (digitChar ev) = ev
    rw [digitVal_digitChar]
    have h0 : digitVal '0' = 0 := rfl
    rw [h0]
    omega
  · simp only [h, if_false]
    exact digitsToNat_natToChars ev

theorem parseExp_roundtrip (eneg : Bool) (ev : Nat) (rest : List Char)
    (hrest : headDigit rest = false) :
    parseExp ((if eneg then '-' else '+') :: (expChars ev ++ rest))
      = some (eneg, ev, rest) := by
  obtain ⟨e0, es, he⟩ := List.exists_cons_of_ne_nil (expChars_ne_nil ev)
  cases eneg
  · show (match takeDigits (expChars ev ++ rest) with
      | ([], _) => none
      | (es2, rem3) => some (false, digitsToNat es2, rem3))
      = some (false, ev, rest)
    rw [takeDigits_digits_append _ _ (expChars_all_digits ev) hrest, he]
    show some (false, digitsToNat (e0 :: es), rest) = some (false, ev, rest)
    rw [← he, digitsToNat_expChars]
  · show (match takeDigits (expChars ev ++ rest) with
      | ([], _) => none
      | (es2, rem3) => some (true, digitsToNat es2, rem3))
      = some (true, ev, rest)
    rw [takeDigits_digits_append _ _ (expChars_all_digits ev) hrest, he]
    show some (true, digitsToNat (e0 :: es), rest) = some (true, ev, rest)
    rw [← he, digitsToNat_expChars]

theorem parseNumTail_int (neg : Bool) (ip : Nat) (rest : List Char)
    (hrest : headNumExt rest = false) :
    parseNumTail neg ip rest
      = some (.jint (if neg then -(ip : Int) else (ip : Int)), rest) := by
  cases rest with
  | nil => rfl
  | cons c rem2 =>
    obtain ⟨-, h1, h2⟩ := headNumExt_false_facts hrest
    unfold parseNumTail
    simp only []
    rw [if_neg h1, if_neg h2]

theorem parseNumTail_plain (neg : Bool) (ip : Nat) (f0 : Fin 10)
    (frest : List (Fin 10)) (rest : List Char)
    (hrest : headNumExt rest = false) :
    parseNumTail neg ip ('.' :: (fracChars (f0 :: frest) ++ rest))
      = some (.jfloat (.plain neg ip f0 frest), rest) := by
  have hb := headDigit_of_headNumExt hrest
  show (match takeDigits (fracChars (f0 :: frest) ++ rest) with
    | ([], _) => none
    | (f :: fs, rem3) =>
      match rem3 with
      | [] =>
        some (JLit.jfloat (PyFloat.plain neg ip (digitFin f)
          (fs.map digitFin)), ([] : List Char))
      | c2 :: rem4 =>
        if c2 = 'e' then
          match parseExp rem4 with
          | none => none
          | some (eneg, ev, rem5) =>
            some (JLit.jfloat (PyFloat.sci neg ip ((f :: fs).map digitFin)
              eneg ev), rem5)
        else
          some (JLit.jfloat (PyFloat.plain neg ip (digitFin f)
            (fs.map digitFin)), c2 :: rem4))
    = some (JLit.jfloat (PyFloat.plain neg ip f0 frest), rest)
  rw [takeDigits_digits_append _ _ (fracChars_all_digits _) hb]
  rw [show fracChars (f0 :: frest) = digitCharF f0 :: fracChars frest
    from rfl]
  cases rest with
  | nil =>
    simp only []
    rw [digitFin_digitCharF, map_digitFin_fracChars]
  | cons c2 rem4 =>
    obtain ⟨-, -, h2⟩ := headNumExt_false_facts hrest
    simp only []
    rw [if_neg h2, digitFin_digitCharF, map_digitFin_fracChars]

theorem parseNumTail_sci_frac (neg : Bool) (ip : Nat) (f1 : Fin 10)
    (fr : List (Fin 10)) (eneg : Bool) (ev : Nat) (rest : List Char)
    (hb : headDigit rest = false) :
    parseNumTail neg ip ('.' :: (fracChars (f1 :: fr) ++
      ('e' :: (if eneg then '-' else '+') :: (expChars ev ++ rest))))
      = some (.jfloat (.sci neg ip (f1 :: fr) eneg ev), rest) := by
  show (match takeDigits (fracChars (f1 :: fr) ++
      ('e' :: (if eneg then '-' else '+') :: (expChars ev ++ rest))) with
    | ([], _) => none
    | (f :: fs, rem3) =>
      match rem3 with
      | [] =>
        some (JLit.jfloat (PyFloat.plain neg ip (digitFin f)
          (fs.map digitFin)), ([] : List Char))
      | c2 :: rem4 =>
        if c2 = 'e' then
          match parseExp rem4 with
          | none => none
          | some (eneg2, ev2, rem5) =>
            some (JLit.jfloat (PyFloat.sci neg ip ((f :: fs).map digitFin)
              eneg2 ev2), rem5)
        else
          some (JLit.jfloat (PyFloat.plain neg ip (digitFin f)
            (fs.map digitFin)), c2 :: rem4))
    = some (JLit.jfloat (PyFloat.sci neg ip (f1 :: fr) eneg ev), rest)
  rw [takeDigits_digits_append (fracChars (f1 :: fr))
    ('e' :: (if eneg then '-' else '+') :: (expChars ev ++ rest))
    (fracChars_all_digits _) rfl]
  rw [show fracChars (f1 :: fr) = digitCharF f1 :: fracChars fr from rfl]
  simp only []
  rw [if_pos trivial]
  rw [parseExp_roundtrip eneg ev rest hb]
  simp only []
  have hmap : (digitCharF f1 :: fracChars fr).map digitFin = f1 :: fr := by
    show (fracChars (f1 :: fr)).map digitFin = f1 :: fr
    exact map_digitFin_fracChars _
  rw [hmap]

theorem parseNumTail_floatBody (x : PyFloat) (rest : List Char)
    (hrest : headNumExt rest = false) :
    parseNumTail (floatBody x).1 (floatBody x).2.1
      ((floatBody x).2.2 ++ rest) = some (.jfloat x, rest) := by
  have hb := headDigit_of_headNumExt hrest
  cases x with
  | plain neg ip f0 frest =>
    show parseNumTail neg ip (('.' :: fracChars (f0 :: frest)) ++ rest)
      = some (.jfloat (.plain neg ip f0 frest), rest)
    rw [List.cons_append]
    exact parseNumTail_plain neg ip f0 frest rest hrest
  | sci neg ip frac eneg ev =>
    cases frac with
    | nil =>
      show (match parseExp
          ((if eneg then '-' else '+') :: (expChars ev ++ rest)) with
        | none => none
        | some (eneg2, ev2, rem3) =>
          some (JLit.jfloat (PyFloat.sci neg ip [] eneg2 ev2), rem3))
        = some (JLit.jfloat (PyFloat.sci neg ip [] eneg ev), rest)
      rw [parseExp_roundtrip eneg ev rest hb]
    | cons f1 fr =>
      show parseNumTail neg ip
        ((('.' :: fracChars (f1 :: fr)) ++
          'e' :: (if eneg then '-' else '+') :: expChars ev) ++ rest)
        = some (.jfloat (.sci neg ip (f1 :: fr) eneg ev), rest)
      rw [show (('.' :: fracChars (f1 :: fr)) ++
          'e' :: (if eneg then '-' else '+') :: expChars ev) ++ rest
        = '.' :: (fracChars (f1 :: fr) ++
          ('e' :: (if eneg then '-' else '+') :: (expChars ev ++ rest)))
        by simp]
      exact parseNumTail_sci_frac neg ip f1 fr eneg ev rest hb

theorem parseLit_num (neg : Bool) (ip : Nat) (tail rest : List Char)
    (hb : headDigit (tail ++ rest) = false) :
    parseLit (((if neg then ['-'] else []) ++ natToChars ip ++ tail) ++ rest)
      = parseNumTail neg ip (tail ++ rest) := by
  obtain ⟨d, t, hd⟩ := List.exists_cons_of_ne_nil (natToChars_ne_nil ip)
  have hdig : d.isDigit = true := by
    apply natToChars_all_digits
    rw [hd]
    simp
  cases neg with
  | false =>
    have c1 : ¬(d = '"') := fun hc => by
      rw [hc] at hdig
      exact absurd hdig (by decide)
    have c2 : ¬(d = 'n') := fun hc => by
      rw [hc] at hdig
      exact absurd hdig (by decide)
    have c3 : ¬(d = 't') := fun hc => by
      rw [hc] at hdig
      exact absurd hdig (by decide)
    have c4 : ¬(d = 'f') := fun hc => by
      rw [hc] at hdig
      exact absurd hdig (by decide)
    have c5 : ¬(d = '-') := fun hc => by
      rw [hc] at hdig
      exact absurd hdig (by decide)
    have hsh : (((if false then ['-'] else []) ++ natToChars ip ++ tail)
        ++ rest) = d :: (t ++ (tail ++ rest)) := by
      rw [hd]
      simp
    rw [hsh]
    unfold parseLit
    simp only []
    rw [if_neg c1, if_neg c2, if_neg c3, if_neg c4, if_neg c5]
    rw [show d :: (t ++ (tail ++ rest)) = (d :: t) ++ (tail ++ rest)
      from rfl]
    rw [takeDigits_digits_append (d :: t) (tail ++ rest)
      (by rw [← hd]; exact natToChars_all_digits _) hb]
    simp only []
    rw [← hd, digitsToNat_natToChars]
  | true =>
    have hsh : (((if true then ['-'] else []) ++ natToChars ip ++ tail)
        ++ rest) = '-' :: (natToChars ip ++ (tail ++ rest)) := by
      simp
    rw [hsh]
    show (match takeDigits (natToChars ip ++ (tail ++ rest)) with
      | ([], _) => none
      | (ds, rem) => parseNumTail true (digitsToNat ds) rem)
      = parseNumTail true ip (tail ++ rest)
    rw [takeDigits_digits_append _ _ (natToChars_all_digits _) hb, hd]
    show parseNumTail true (digitsToNat (d :: t)) (tail ++ rest) = _
    rw [← hd, digitsToNat_natToChars]

theorem parseLit_dumpLit (v : JLit) (rest : List Char)
    (hrest : headNumExt rest = false) :
    parseLit (dumpLit v ++ rest) = some (v, rest) := by
  have hb : headDigit rest = false := headDigit_of_headNumExt hrest
  cases v with
  | jnull => rfl
  | jbool b => cases b <;> rfl
  | jstr s =>
    show parseLit (('"' :: (escStr s ++ ['"'])) ++ rest) = _
    simp only [List.cons_append, List.append_assoc, List.singleton_append]
    simp [parseLit, parseJString_escStr]
  | jint n =>
    by_cases hn : n < 0
    · have hsh : dumpLit (.jint n) ++ rest
          = (((if true then ['-'] else []) ++ natToChars (-n).toNat ++ [])
            ++ rest) := by
        simp [dumpLit, intToChars, hn]
      rw [hsh, parseLit_num true (-n).toNat [] rest (by simpa using hb)]
      rw [List.nil_append]
      rw [parseNumTail_int true _ rest hrest]
      show some (JLit.jint (-(((-n).toNat : Nat) : Int)), rest)
        = some (JLit.jint n, rest)
      have hval : (-(((-n).toNat : Nat) : Int)) = n := by omega
      rw [hval]
    · have hsh : dumpLit (.jint n) ++ rest
          = (((if false then ['-'] else []) ++ natToChars n.toNat ++ [])
            ++ rest) := by
        simp [dumpLit, intToChars, hn]
      rw [hsh, parseLit_num false n.toNat [] rest (by simpa using hb)]
      rw [List.nil_append]
      rw [parseNumTail_int false _ rest hrest]
      show some (JLit.jint ((n.toNat : Nat) : Int), rest)
        = some (JLit.jint n, rest)
      have hval : ((n.toNat : Nat) : Int) = n := Int.toNat_of_nonneg (by omega)
      rw [hval]
  | jfloat x =>
    have hb2 : headDigit ((floatBody x).2.2 ++ rest) = false := by
      cases x with
      | plain neg ip f0 frest => rfl
      | sci neg ip frac eneg ev => cases frac <;> rfl
    have hsh : dumpLit (.jfloat x) ++ rest
        = (((if (floatBody x).1 then ['-'] else []) ++
            natToChars (floatBody x).2.1 ++ (floatBody x).2.2) ++ rest) := rfl
    rw [hsh, parseLit_num _ _ _ _ hb2]
    exact parseNumTail_floatBody x rest hrest

theorem dumpPairs_cons_head (p : List Char × JLit) (r' : JRec) :
    ∃ t, dumpPairs (p :: r') = '"' :: t := by
  cases r' <;> exact ⟨_, rfl⟩

theorem dumpPairs_length_ge (r : JRec) : r.length ≤ (dumpPairs r).length := by
  induction r with
  | nil => simp [dumpPairs]
  | cons p r' ih =>
    cases r' with
    | nil => simp [dumpPairs, dumpPair]
    | cons q r'' =>
      show (p :: q :: r'').length
        ≤ (dumpPair p ++ [',', ' '] ++ dumpPairs (q :: r'')).length
      rw [List.length_append, List.length_append]
      have h1 : 1 ≤ (dumpPair p).length := by simp [dumpPair]
      simp only [List.length_cons, List.length_nil] at ih ⊢
      omega

theorem parsePairs_dumpPairs :
    ∀ (r : JRec), r ≠ [] → ∀ fuel, r.length ≤ fuel → ∀ rest,
      parsePairs fuel (dumpPairs r ++ '}' :: rest) = some (r, rest) := by
  intro r
  induction r with
  | nil => intro hne; exact absurd rfl hne
  | cons p r' ih =>
    intro _ fuel hf rest
    cases fuel with
    | zero => simp at hf
    | succ fuel =>
      cases r' with
      | nil =>
        show parsePairs (fuel + 1) (dumpPair p ++ '}' :: rest)
          = some ([p], rest)
        have hsh : dumpPair p ++ '}' :: rest
            = '"' :: (escStr p.1 ++ '"' ::
              (':' :: ' ' :: (dumpLit p.2 ++ '}' :: rest))) := by
          simp [dumpPair]
        rw [hsh]
        simp only [parsePairs]
        rw [parseJString_escStr]
        simp only []
        rw [parseLit_dumpLit p.2 ('}' :: rest) rfl]
        rfl
      | cons q r'' =>
        show parsePairs (fuel + 1)
          ((dumpPair p ++ [',', ' '] ++ dumpPairs (q :: r'')) ++ '}' :: rest)
          = some (p :: q :: r'', rest)
        have hsh : (dumpPair p ++ [',', ' '] ++ dumpPairs (q :: r'')) ++ '}' :: rest
            = '"' :: (escStr p.1 ++ '"' :: (':' :: ' ' ::
              (dumpLit p.2 ++ ',' :: ' ' :: (dumpPairs (q :: r'') ++ '}' :: rest)))) := by
          simp [dumpPair]
        rw [hsh]
        simp only [parsePairs]
        rw [parseJString_escStr]
        simp only []
        rw [parseLit_dumpLit p.2 (',' :: ' ' :: (dumpPairs (q :: r'') ++ '}' :: rest)) rfl]
        simp only []
        rw [ih (List.cons_ne_nil q r'') fuel (by simp at hf ⊢; omega) rest]

theorem parseRec_dumpRec (r : JRec) : parseRec (dumpRec r) = some r := by
  cases r with
  | nil => rfl
  | cons p r' =>
    obtain ⟨t, ht⟩ := dumpPairs_cons_head p r'
    have hlen : (p :: r').length
        ≤ (dumpPairs (p :: r') ++ ['}']).length + 1 := by
      have h := dumpPairs_length_ge (p :: r')
      simp only [List.length_append, List.length_cons, List.length_nil] at h ⊢
      omega
    show parseRec ('{' :: (dumpPairs (p :: r') ++ ['}'])) = some (p :: r')
    rw [ht, List.cons_append]
    show (match parsePairs (('"' :: (t ++ ['}'])).length + 1)
        ('"' :: (t ++ ['}'])) with
      | some (ps, []) => some ps
      | _ => none) = some (p :: r')
    rw [show ('"' : Char) :: (t ++ ['}']) = ('"' :: t) ++ ['}'] by
      rw [List.cons_append], ← ht]
    rw [parsePairs_dumpPairs (p :: r') (List.cons_ne_nil p r') _ hlen []]

theorem escChar_no_nl : ∀ ch c, c ∈ escChar ch → c ≠ '\n' := by
  intro ch c hc hcon
  subst hcon
  unfold escChar at hc
  split_ifs at hc with h1 h2 h3 h4 h5 <;> simp at hc
  exact h3 hc.symm

theorem escStr_no_nl (s : List Char) : ∀ c ∈ escStr s, c ≠ '\n' := by
  induction s with
  | nil => simp [escStr]
  | cons ch s ih =>
    intro c hc
    rcases List.mem_append.mp (by simpa [escStr] using hc) with h | h
    · exact escChar_no_nl ch c h
    · exact ih c h

theorem natToChars_no_nl (n : Nat) : ∀ c ∈ natToChars n, c ≠ '\n' := by
  intro c hc hcon
  subst hcon
  have := natToChars_all_digits n _ hc
  exact absurd this (by decide)

theorem intToChars_no_nl (n : Int) : ∀ c ∈ intToChars n, c ≠ '\n' := by
  intro c hc
  unfold intToChars at hc
  split_ifs at hc
  · rcases List.mem_cons.mp hc with h | h
    · subst h; decide
    · exact natToChars_no_nl _ c h
  · exact natToChars_no_nl _ c hc

theorem digitChar_ne_nl (n : Nat) : digitChar n ≠ '\n' := by
  intro hc
  have hdg := digitChar_isDigit n
  rw [hc] at hdg
  exact absurd hdg (by decide)

theorem fracChars_no_nl (fs : List (Fin 10)) :
    ∀ c ∈ fracChars fs, c ≠ '\n' := by
  intro c hc
  simp only [fracChars, List.mem_map] at hc
  obtain ⟨d, -, rfl⟩ := hc
  exact digitChar_ne_nl d.val

theorem expChars_no_nl (ev : Nat) : ∀ c ∈ expChars ev, c ≠ '\n' := by
  intro c hc
  unfold expChars at hc
  split_ifs at hc
  · rcases List.mem_cons.mp hc with h | h
    · subst h; decide
    · simp at h
      subst h
      exact digitChar_ne_nl ev
  · exact natToChars_no_nl ev c hc

theorem dumpFloat_no_nl (x : PyFloat) : ∀ c ∈ dumpFloat x, c ≠ '\n' := by
  intro c hc
  unfold dumpFloat at hc
  rcases List.mem_append.mp hc with h | h
  · rcases List.mem_append.mp h with h2 | h2
    · split_ifs at h2
      · simp at h2
        subst h2
        decide
      · simp at h2
    · exact natToChars_no_nl _ c h2
  · cases x with
    | plain neg ip f0 frest =>
      simp only [floatBody] at h
      rcases List.mem_cons.mp h with h2 | h2
      · subst h2; decide
      · exact fracChars_no_nl _ c h2
    | sci neg ip frac eneg ev =>
      simp only [floatBody] at h
      rcases List.mem_append.mp h with h2 | h2
      · split_ifs at h2
        · simp at h2
        · rcases List.mem_cons.mp h2 with h3 | h3
          · subst h3; decide
          · exact fracChars_no_nl _ c h3
      · rcases List.mem_cons.mp h2 with h3 | h3
        · subst h3; decide
        · rcases List.mem_cons.mp h3 with h4 | h4
          · cases eneg <;> simp at h4 <;> subst h4 <;> decide
          · exact expChars_no_nl ev c h4

theorem dumpLit_no_nl (v : JLit) : ∀ c ∈ dumpLit v, c ≠ '\n' := by
  cases v with
  | jnull => decide
  | jbool b => cases b <;> decide
  | jint n => exact intToChars_no_nl n
  | jfloat x => exact dumpFloat_no_nl x
  | jstr s =>
    intro c hc
    rcases List.mem_cons.mp hc with h | h
    · subst h; decide
    · rcases List.mem_append.mp h with h2 | h2
      · exact escStr_no_nl s c h2
      · simp at h2; subst h2; decide

theorem dumpPair_no_nl (p : List Char × JLit) :
    ∀ c ∈ dumpPair p, c ≠ '\n' := by
  intro c hc
  simp only [dumpPair, List.mem_cons, List.mem_append] at hc
  rcases hc with h | h | h | h | h | h
  · subst h; decide
  · exact escStr_no_nl _ c h
  · subst h; decide
  · subst h; decide
  · subst h; decide
  · exact dumpLit_no_nl _ c h

theorem dumpPairs_no_nl (r : JRec) : ∀ c ∈ dumpPairs r, c ≠ '\n' := by
  induction r with
  | nil => simp [dumpPairs]
  | cons p r' ih =>
    cases r' with
    | nil => exact fun c hc => dumpPair_no_nl p c hc
    | cons q r'' =>
      intro c hc
      simp only [dumpPairs, List.mem_append, List.mem_cons] at hc
      rcases hc with (h | h | h) | h
      · exact dumpPair_no_nl p c h
      · subst h; decide
      · simp at h; subst h; decide
      · exact ih c h

theorem dumpRec_no_nl (r : JRec) : ∀ c ∈ dumpRec r, c ≠ '\n' := by
  intro c hc
  simp only [dumpRec, List.mem_cons, List.mem_append] at hc
  rcases hc with h | h | h
  · subst h; decide
  · exact dumpPairs_no_nl r c h
  · simp at h; subst h; decide

theorem stripWith_sandwich (p : Char → Bool) (a b : Char) (X : List Char)
    (ha : p a = false) (hb : p b = false) (hnl : p '\n' = true) :
    stripWith p ((a :: (X ++ [b])) ++ ['\n']) = a :: (X ++ [b]) := by
  unfold stripWith
  rw [show (a :: (X ++ [b])) ++ ['\n'] = a :: ((X ++ [b]) ++ ['\n'])
    from rfl]
  rw [List.dropWhile_cons]
  simp only [ha, Bool.false_eq_true, if_false]
  rw [show (a :: ((X ++ [b]) ++ ['\n'])).reverse
      = '\n' :: (b :: (X.reverse ++ [a])) by simp]
  rw [List.dropWhile_cons]
  simp only [hnl, if_true]
  rw [List.dropWhile_cons]
  simp only [hb, Bool.false_eq_true, if_false]
  simp

/-- `pyStripL` is the generic strip at Python's whitespace set. -/
theorem pyStripL_eq_stripWith (l : List Char) :
    pyStripL l = stripWith isPySpace l := rfl

theorem linesAux_cons_nl (acc : List Char) (rest : List Char) :
    linesAux acc ('\n' :: rest)
      = (acc.reverse ++ ['\n']) :: linesAux [] rest := rfl

theorem linesAux_cons_other {ch : Char} (h : ¬ch = '\n')
    (acc rest : List Char) :
    linesAux acc (ch :: rest) = linesAux (ch :: acc) rest := by
  rw [linesAux]
  simp [h]

theorem linesAux_split (front : List Char) :
    ∀ acc suffix, linesAux acc ((front ++ ['\n']) ++ suffix)
      = linesAux acc (front ++ ['\n']) ++ linesAux [] suffix := by
  induction front with
  | nil =>
    intro acc suffix
    show linesAux acc ('\n' :: suffix)
      = linesAux acc ['\n'] ++ linesAux [] suffix
    rw [linesAux_cons_nl, linesAux_cons_nl]
    rfl
  | cons ch front ih =>
    intro acc suffix
    show linesAux acc (ch :: ((front ++ ['\n']) ++ suffix))
      = linesAux acc (ch :: (front ++ ['\n'])) ++ linesAux [] suffix
    by_cases h : ch = '\n'
    · subst h
      rw [linesAux_cons_nl, linesAux_cons_nl]
      rw [ih [] suffix]
      rfl
    · rw [linesAux_cons_other h, linesAux_cons_other h, ih]

theorem linesAux_single (m : List Char) (hm : ∀ c ∈ m, c ≠ '\n') :
    ∀ acc, linesAux acc (m ++ ['\n']) = [acc.reverse ++ (m ++ ['\n'])] := by
  induction m with
  | nil =>
    intro acc
    show linesAux acc ['\n'] = _
    rw [linesAux_cons_nl]
    rfl
  | cons ch m ih =>
    intro acc
    have hch : ¬(ch = '\n') := hm ch (by simp)
    show linesAux acc (ch :: (m ++ ['\n'])) = _
    rw [linesAux_cons_other hch, ih (fun c hc => hm c (by simp [hc]))]
    simp

theorem parseAll_append (xs ys : List (List Char)) :
    parseAll (xs ++ ys)
      = match parseAll xs, parseAll ys with
        | some a, some b => some (a ++ b)
        | _, _ => none := by
  induction xs with
  | nil =>
    simp only [List.nil_append, parseAll]
    cases parseAll ys <;> rfl
  | cons x xs ih =>
    show parseAll (x :: (xs ++ ys)) = _
    rw [show parseAll (x :: (xs ++ ys))
        = match parseRec (jsonStripL x), parseAll (xs ++ ys) with
          | some r, some rs => some (r :: rs)
          | _, _ => none from rfl]
    rw [ih]
    rw [show parseAll (x :: xs)
        = match parseRec (jsonStripL x), parseAll xs with
          | some r, some rs => some (r :: rs)
          | _, _ => none from rfl]
    cases parseRec (jsonStripL x) <;> cases parseAll xs <;>
      cases parseAll ys <;> rfl

/-- C10: appending a record with `save_jsonl` and reading the file back
with `load_jsonl` yields exactly the previously stored records with the
new one at the end; no earlier record is altered or removed, and the
file again ends in a newline (the invariant `save_jsonl` maintains from
the empty file `ensure_tables_exist` creates). -/
theorem C10_save_load_roundtrip (content : List Char) (r : JRec)
    (prev : List JRec) (hload : load_jsonl content = some prev)
    (hstate : content = [] ∨ ∃ front, content = front ++ ['\n']) :
    load_jsonl (save_jsonl content r) = some (prev ++ [r]) ∧
    (∃ front, save_jsonl content r = front ++ ['\n']) := by
  have hone : linesAux [] (dumpRec r ++ ['\n']) = [dumpRec r ++ ['\n']] := by
    simpa using linesAux_single (dumpRec r) (dumpRec_no_nl r) []
  have hsplit : pyLines (save_jsonl content r)
      = pyLines content ++ [dumpRec r ++ ['\n']] := by
    rcases hstate with hC | ⟨front, hC⟩
    · subst hC
      rw [save_jsonl, List.nil_append]
      unfold pyLines
      rw [hone]
      rfl
    · subst hC
      rw [save_jsonl]
      unfold pyLines
      rw [List.append_assoc (front ++ ['\n']) (dumpRec r) ['\n']]
      rw [linesAux_split front [] (dumpRec r ++ ['\n']), hone]
  obtain ⟨X, hX⟩ : ∃ X, dumpRec r = '{' :: (X ++ ['}']) :=
    ⟨dumpPairs r, rfl⟩
  have hstrip_py : pyStripL (dumpRec r ++ ['\n']) = dumpRec r := by
    rw [hX, pyStripL_eq_stripWith]
    exact stripWith_sandwich isPySpace '{' '}' X (by decide) (by decide)
      (by decide)
  have hstrip_json : jsonStripL (dumpRec r ++ ['\n']) = dumpRec r := by
    rw [hX]
    exact stripWith_sandwich isJsonWs '{' '}' X (by decide) (by decide)
      (by decide)
  have hkeep : (List.filter (fun l => !(pyStripL l).isEmpty)
      [dumpRec r ++ ['\n']]) = [dumpRec r ++ ['\n']] := by
    have hpos : (!(pyStripL (dumpRec r ++ ['\n'])).isEmpty) = true := by
      rw [hstrip_py, hX]
      rfl
    simp [List.filter, hpos]
  have hnew : parseAll [dumpRec r ++ ['\n']] = some [r] := by
    simp only [parseAll, hstrip_json, parseRec_dumpRec]
  constructor
  · unfold load_jsonl at hload ⊢
    rw [hsplit, List.filter_append, hkeep, parseAll_append, hload, hnew]
  · exact ⟨content ++ dumpRec r, by simp [save_jsonl]⟩

/-- A concrete record for the C10 witness, with one field of every
value shape the app persists — including floats in both plain
(`1000.0`, `-123.45`) and scientific (`1.5e-07`, `1e+20`) forms. -/
def recA : JRec :=
  [("credit_history".data, JLit.jstr "clean".data),
   ("n".data, JLit.jint (-2)),
   ("ok".data, JLit.jbool true),
   ("x".data, JLit.jnull),
   ("business_capital_etb".data, JLit.jfloat (.plain false 1000 0 [])),
   ("net_profit_last3".data, JLit.jfloat (.plain true 123 4 [5])),
   ("tiny".data, JLit.jfloat (.sci false 1 [5] true 7)),
   ("huge".data, JLit.jfloat (.sci false 1 [] false 20))]

/-- Witness for C10: append `recA` twice starting from the empty file
and read both records back in order. -/
theorem C10_save_load_roundtrip_witness :
    load_jsonl (save_jsonl (save_jsonl [] recA) recA)
      = some [recA, recA] := by
  have h1 := C10_save_load_roundtrip [] recA [] rfl (Or.inl rfl)
  have h2 := C10_save_load_roundtrip (save_jsonl [] recA) recA [recA]
    h1.1 (Or.inr h1.2)
  exact h2.1

end EDI
